import Mathlib

/-!
Verification of the Originium Circuitry Solver core engine.

This file shallowly embeds the JavaScript source of the repository:
* `src/shapes.js` — shape definitions, rotation, bounding boxes, library;
* the solver file (`runSolver`, `solveForColor`, `runSolverWithShapeCounts`,
  `solveForColorWithCounts`, `solveForColorWithCountsSimple`,
  `runFitAllPiecesSolver`);
* the generator file (`PuzzleGenerator`).

Modelling conventions:
* Cell coordinates are `Int × Int` (the rotation pass goes through negative
  coordinates before renormalizing, exactly as the source's `(r,c) → (c,-r)`).
* JavaScript string-keyed objects are modelled as association lists with
  unique keys (`objGet`/`objSet`/`objInc`); JS `Set`s of `"r,c"` string keys
  are modelled as duplicate-free lists of cell pairs (the string encoding of
  an integer pair is injective, so membership coincides).
* Grid cell state strings (`'empty'`, `'blocked'`, `'<color>'`,
  `'locked-<color>'`) are modelled by the inductive `CellState`, which is
  exact for palettes whose color names do not collide with the encodings.
* The generator's `Math.random()` draws are modelled by an explicit oracle:
  a list of naturals consumed left to right, with `Math.floor(Math.random()*n)`
  reading the next entry modulo `n`.  Every concrete run of the source
  corresponds to some oracle and vice versa.
* Loops whose termination the source does not bound (the generator's
  symmetrical placement loops, the shape-selection loop) receive an explicit
  fuel argument mirroring the source's reliance on eventual progress; all
  theorems below evaluate only paths the source completes.
-/

namespace OCS

/-- Cell coordinate, as a `(row, col)` pair of integers. -/
abbrev Cell := Int × Int

/-! ### JavaScript object / set helpers -/

/-- Read a key of a JS object modelled as an association list
(`undefined` becomes `none`). -/
def objGet {α : Type} (o : List (String × α)) (k : String) : Option α :=
  o.lookup k

/-- Write a key of a JS object: overwrite an existing key in place, else
append (JS objects keep first-insertion key order). -/
def objSet {α : Type} : List (String × α) → String → α → List (String × α)
  | [], k, v => [(k, v)]
  | (k', v') :: rest, k, v =>
    if k' = k then (k, v) :: rest else (k', v') :: objSet rest k v

/-- The JS statement `o[k]++` on an object whose keys are unique: bump the
value stored at `k`, leave every other key untouched. -/
def objInc (o : List (String × Nat)) (k : String) : List (String × Nat) :=
  o.map fun kv => if kv.1 = k then (kv.1, kv.2 + 1) else kv

/-! ### Shape geometry (`src/shapes.js`) -/

/-- Minimum of a list of integers; the source applies `Math.min(...)` only to
nonempty lists, so the `[]` value is never reached. -/
def listMinInt : List Int → Int
  | [] => 0
  | x :: xs => xs.foldl min x

/-- Maximum of a list of integers (nonempty in every use). -/
def listMaxInt : List Int → Int
  | [] => 0
  | x :: xs => xs.foldl max x

/-- Rotate a shape 90 degrees clockwise: `(r, c) → (c, -r)`, then normalize
so the minimum row and column are 0 (`rotateShape90`). -/
def rotateShape90 (cells : List Cell) : List Cell :=
  let rotated := cells.map fun rc => (rc.2, -rc.1)
  let minRow := listMinInt (rotated.map Prod.fst)
  let minCol := listMinInt (rotated.map Prod.snd)
  rotated.map fun rc => (rc.1 - minRow, rc.2 - minCol)

/-- Set equality of two cell lists (`shapesEqual`): equal lengths, equal
numbers of distinct cells, and containment of the first set in the second. -/
def shapesEqual (shape1 shape2 : List Cell) : Bool :=
  shape1.length = shape2.length &&
  shape1.dedup.length = shape2.dedup.length &&
  shape1.dedup.all (fun cell => shape2.contains cell)

/-- Generate the unique rotations of a shape (`getAllRotations`): start from
the base cells and apply `rotateShape90` three times, keeping each result
that is set-distinct from all previously recorded rotations. -/
def getAllRotations (cells : List Cell) : List (List Cell) :=
  let step := fun (acc : List (List Cell) × List Cell) (_ : Nat) =>
    let current := rotateShape90 acc.2
    let isUnique := !(acc.1.any fun existing => shapesEqual existing current)
    (if isUnique then acc.1 ++ [current] else acc.1, current)
  (List.range 3 |>.foldl step ([cells], cells)).1

/-- Bounding box of a shape (`getShapeBounds`). -/
structure Bounds where
  minRow : Int
  maxRow : Int
  minCol : Int
  maxCol : Int
  height : Int
  width : Int
deriving DecidableEq

/-- Compute the bounding box of a cell list (`getShapeBounds`). -/
def getShapeBounds (cells : List Cell) : Bounds :=
  let rows := cells.map Prod.fst
  let cols := cells.map Prod.snd
  { minRow := listMinInt rows
    maxRow := listMaxInt rows
    minCol := listMinInt cols
    maxCol := listMaxInt cols
    height := listMaxInt rows - listMinInt rows + 1
    width := listMaxInt cols - listMinInt cols + 1 }

/-- One entry of `SHAPE_DEFINITIONS`. -/
structure ShapeDef where
  name : String
  cells : List Cell
deriving DecidableEq

/-- The built-in `SHAPE_DEFINITIONS` object of `src/shapes.js`, in source
order. -/
def SHAPE_DEFINITIONS : List (String × ShapeDef) :=
  [ ("square-4", ⟨"2x2 Square", [(0, 0), (0, 1), (1, 0), (1, 1)]⟩),
    ("double-square-7",
      ⟨"Double Square", [(0, 0), (0, 1), (1, 0), (1, 1), (1, 2), (2, 1), (2, 2)]⟩),
    ("line-3", ⟨"3-Block Line", [(0, 0), (0, 1), (0, 2)]⟩),
    ("line-4", ⟨"4-Block Line", [(0, 0), (0, 1), (0, 2), (0, 3)]⟩),
    ("L-3", ⟨"3-Block L", [(0, 0), (1, 0), (1, 1)]⟩),
    ("L-3-mirror", ⟨"3-Block L (Mirror)", [(0, 1), (1, 0), (1, 1)]⟩),
    ("L-4", ⟨"4-Block L", [(0, 0), (1, 0), (2, 0), (2, 1)]⟩),
    ("L-4-mirror", ⟨"4-Block L (Mirror)", [(0, 1), (1, 1), (2, 0), (2, 1)]⟩),
    ("L-5", ⟨"5-Block Big L", [(0, 0), (1, 0), (2, 0), (2, 1), (2, 2)]⟩),
    ("L-5-mirror", ⟨"5-Block Big L (Mirror)", [(0, 2), (1, 2), (2, 0), (2, 1), (2, 2)]⟩),
    ("T-4", ⟨"4-Block T", [(0, 0), (0, 1), (0, 2), (1, 1)]⟩),
    ("T-6", ⟨"6-Block T", [(0, 0), (1, 0), (1, 1), (1, 2), (2, 1), (3, 1)]⟩),
    ("T-6-mirror", ⟨"6-Block T (Mirror)", [(0, 2), (1, 0), (1, 1), (1, 2), (2, 1), (3, 1)]⟩),
    ("cross-5", ⟨"5-Block Cross", [(0, 1), (1, 0), (1, 1), (1, 2), (2, 1)]⟩),
    ("J-6", ⟨"6-Block J", [(0, 2), (1, 0), (1, 2), (2, 0), (2, 1), (2, 2)]⟩),
    ("J-6-mirror", ⟨"6-Block J (Mirror)", [(0, 0), (1, 0), (1, 2), (2, 0), (2, 1), (2, 2)]⟩),
    ("zigzag-6", ⟨"6-Block Zigzag", [(0, 1), (1, 0), (1, 1), (2, 1), (2, 2), (3, 1)]⟩),
    ("zigzag-6-mirror",
      ⟨"6-Block Zigzag (Mirror)", [(0, 1), (1, 1), (1, 2), (2, 0), (2, 1), (3, 1)]⟩),
    ("Z-4", ⟨"4-Block Z", [(0, 0), (0, 1), (1, 1), (1, 2)]⟩),
    ("Z-4-mirror", ⟨"4-Block Z (Mirror)", [(0, 1), (0, 2), (1, 0), (1, 1)]⟩) ]

/-- One entry of the shape library (`buildShapeLibrary`); `isCustom` is
omitted — custom shapes come from `localStorage`, which the spec places out
of scope. -/
structure ShapeEntry where
  name : String
  baseShape : List Cell
  rotations : List (List Cell)
  cellCount : Nat
deriving DecidableEq

/-- Build the shape library from the built-in definitions
(`buildShapeLibrary` without the out-of-scope `localStorage` custom
shapes). -/
def buildShapeLibrary : List (String × ShapeEntry) :=
  SHAPE_DEFINITIONS.map fun idDef =>
    (idDef.1,
      { name := idDef.2.name
        baseShape := idDef.2.cells
        rotations := getAllRotations idDef.2.cells
        cellCount := idDef.2.cells.length })

/-- The `SHAPE_LIBRARY` constant. -/
def SHAPE_LIBRARY : List (String × ShapeEntry) := buildShapeLibrary

/-! ### Solver data model -/

/-- Grid cell state. The source stores the strings `'empty'`, `'blocked'`,
`'<color>'` and `'locked-<color>'`; the inductive is the faithful rendering
for palettes whose names do not collide with those encodings. -/
inductive CellState where
  | empty
  | blocked
  | filled (color : String)
  | locked (color : String)
deriving DecidableEq

/-- A placement record as built by `generatePlacementsForShape`. The
source also stores `cellSet` (the same cells as a string-keyed set); it is
read nowhere in the solver, so it is not duplicated here. -/
structure Placement where
  shapeId : String
  rotationIndex : Nat
  cells : List Cell
deriving DecidableEq

/-- Per-color row/column requirement object: JS object mapping color name
to a count. -/
abbrev Req := List (String × Nat)

/-- All valid placements of one shape on the grid
(`generatePlacementsForShape`): every rotation at every anchor whose cells
fit the bounding box, kept when no cell lies on a blocked cell. -/
def generatePlacementsForShape (shapeId : String) (gridRows gridCols : Nat)
    (blockedSet : List Cell) : List Placement :=
  match SHAPE_LIBRARY.lookup shapeId with
  | none => []
  | some shape =>
    (List.range shape.rotations.length).flatMap fun rotIdx =>
      let rotation := shape.rotations.getD rotIdx []
      let bounds := getShapeBounds rotation
      (List.range ((gridRows : Int) - bounds.height + 1).toNat).flatMap fun startRow =>
        (List.range ((gridCols : Int) - bounds.width + 1).toNat).filterMap fun startCol =>
          let cells := rotation.map fun rc =>
            ((startRow : Int) + rc.1, (startCol : Int) + rc.2)
          if cells.any fun cell => blockedSet.contains cell then none
          else some { shapeId := shapeId, rotationIndex := rotIdx, cells := cells }

/-- All valid placements across the enabled shapes (`generateAllPlacements`). -/
def generateAllPlacements (gridRows gridCols : Nat) (blockedCells : List Cell)
    (enabledShapes : List String) : List Placement :=
  enabledShapes.flatMap fun shapeId =>
    generatePlacementsForShape shapeId gridRows gridCols blockedCells

/-- Increment slot `i` of a count array; out-of-range writes are dropped,
matching the fact that the source only ever writes in-grid indices here. -/
def bumpAt (l : List Nat) (i : Nat) : List Nat :=
  l.set i (l.getD i 0 + 1)

/-- The source's `countsMatch`: every row count equals the row requirement
of `color` and every column count equals the column requirement. A missing
key (JS `undefined`) compares unequal. -/
def countsMatch (rowCounts colCounts : List Nat) (rowReqs colReqs : List Req)
    (color : String) : Bool :=
  ((List.range rowCounts.length).all fun r =>
    match objGet (rowReqs.getD r []) color with
    | some v => rowCounts.getD r 0 = v
    | none => false) &&
  ((List.range colCounts.length).all fun c =>
    match objGet (colReqs.getD c []) color with
    | some v => colCounts.getD c 0 = v
    | none => false)

/-- The source's `countsExceed`: some count strictly exceeds its
requirement. A missing key (JS `NaN` comparison) yields `false`. -/
def countsExceed (rowCounts colCounts : List Nat) (rowReqs colReqs : List Req)
    (color : String) : Bool :=
  ((List.range rowCounts.length).any fun r =>
    match objGet (rowReqs.getD r []) color with
    | some v => v < rowCounts.getD r 0
    | none => false) ||
  ((List.range colCounts.length).any fun c =>
    match objGet (colReqs.getD c []) color with
    | some v => v < colCounts.getD c 0
    | none => false)

/-! ### Free-count per-color search (`solveForColor`) -/

/-- One recorded per-color solution: a snapshot of the placement stack and
of the used-cell set (in insertion order, as a JS `Set` iterates). -/
structure ColorSol where
  placements : List Placement
  cells : List Cell
deriving DecidableEq

/-- Sort key used by `solveForColor`: the minimum over the placement's
cells of `r * 100 + c`. -/
def key100 (p : Placement) : Int :=
  listMinInt (p.cells.map fun rc => rc.1 * 100 + rc.2)

/-- Insert an element into an ascending list, after every element whose key
is less than or equal — the insertion point a stable sort gives it. -/
def stableInsert {α : Type} (le : α → α → Bool) (x : α) : List α → List α
  | [] => [x]
  | y :: ys => if le y x then y :: stableInsert le x ys else x :: y :: ys

/-- Stable ascending sort by a boolean comparison, inserting the elements
left to right. JS `Array.prototype.sort` with the comparator
`(a, b) => aKey - bKey` is required to produce exactly this order (ascending
by key, ties in input order), so this is its extensional model. -/
def stableSort {α : Type} (le : α → α → Bool) (l : List α) : List α :=
  l.foldl (fun acc x => stableInsert le x acc) []

/-- The candidate list `solveForColor` iterates: placements that avoid the
forbidden cells, sorted (stably, as JS `sort`) by `key100`. -/
def sortValidPlacements (placements : List Placement) (forbiddenCells : List Cell) :
    List Placement :=
  let valid := placements.filter fun p =>
    !(p.cells.any fun cell => forbiddenCells.contains cell)
  stableSort (fun a b => key100 a ≤ key100 b) valid

/-- Mutable state of the free-count backtracker: running counts, the
used-cell set, the placement stack, and the solutions found so far. -/
structure FreeState where
  rowCounts : List Nat
  colCounts : List Nat
  used : List Cell
  current : List Placement
  sols : List ColorSol
deriving DecidableEq

/-- Push one placement onto the free-count state (the `usedCells.add` /
count-increment block); popping is implicit because the embedding keeps the
previous state. -/
def placeFree (st : FreeState) (p : Placement) : FreeState :=
  { st with
    current := st.current ++ [p]
    used := st.used ++ p.cells
    rowCounts := p.cells.foldl (fun l rc => bumpAt l rc.1.toNat) st.rowCounts
    colCounts := p.cells.foldl (fun l rc => bumpAt l rc.2.toNat) st.colCounts }

/-- The candidate loop of `backtrack` in `solveForColor`: try each
placement of the suffix, skipping overlaps, recursing through `child`
(the next `backtrack` level), and stopping early once 100 solutions are
recorded. -/
def freeLoop (child : List Placement → FreeState → List ColorSol) :
    List Placement → FreeState → List ColorSol
  | [], st => st.sols
  | p :: rest, st =>
    if p.cells.any fun cell => st.used.contains cell then
      freeLoop child rest st
    else
      let sols' := child rest (placeFree st p)
      if 100 ≤ sols'.length then sols'
      else freeLoop child rest { st with sols := sols' }

/-- One `backtrack(startIdx)` call of `solveForColor`: record a solution on
an exact match (stopping at the 100th), prune when a requirement is
exceeded, then run the candidate loop. The fuel argument only bounds the
recursion depth; it never runs out when it starts above the candidate-list
length. -/
def freeEntry (rowReqs colReqs : List Req) (color : String) :
    Nat → List Placement → FreeState → List ColorSol
  | 0, _, st => st.sols
  | fuel + 1, cands, st =>
    let go := fun (st : FreeState) =>
      if countsExceed st.rowCounts st.colCounts rowReqs colReqs color then st.sols
      else freeLoop (fun rest st' => freeEntry rowReqs colReqs color fuel rest st') cands st
    if countsMatch st.rowCounts st.colCounts rowReqs colReqs color then
      let st' := { st with sols := st.sols ++ [⟨st.current, st.used⟩] }
      if 100 ≤ st'.sols.length then st'.sols else go st'
    else go st

/-- The source's `solveForColor`: filter and sort the placements, then run
the backtracker from an all-zero state. -/
def solveForColor (color : String) (placements : List Placement)
    (gridRows gridCols : Nat) (rowReqs colReqs : List Req)
    (forbiddenCells : List Cell) : List ColorSol :=
  let validPlacements := sortValidPlacements placements forbiddenCells
  freeEntry rowReqs colReqs color (validPlacements.length + 1) validPlacements
    { rowCounts := List.replicate gridRows 0
      colCounts := List.replicate gridCols 0
      used := []
      current := []
      sols := [] }

/-! ### Whole-puzzle solver (`runSolver`) -/

/-- One whole-puzzle solution record. -/
structure Solution where
  green : List Cell
  blue : List Cell
  greenPlacements : List Placement
  bluePlacements : List Placement
deriving DecidableEq

/-- Result of a solver entry point. -/
inductive SolverResult where
  | success (solutions : List Solution)
  | failure (message : String)
deriving DecidableEq

/-- The solutions of a result (empty on failure). -/
def solutionsOf : SolverResult → List Solution
  | .success sols => sols
  | .failure _ => []

/-- The blocked-cell scan at the top of `runSolver` /
`runSolverWithShapeCounts`. -/
def blockedCellsOf (gridRows gridCols : Nat) (gridState : List (List CellState)) :
    List Cell :=
  (List.range gridRows).flatMap fun r =>
    (List.range gridCols).filterMap fun c =>
      if (gridState.getD r []).getD c .empty = .blocked then
        some ((r : Int), (c : Int))
      else none

/-- Whether any row or column requirement of `color` is positive
(the source's `hasGreenReq` / `hasBlueReq` tests). -/
def hasColorReq (rowReqs colReqs : List Req) (color : String) : Bool :=
  (rowReqs.any fun req => 0 < (objGet req color).getD 0) ||
  (colReqs.any fun req => 0 < (objGet req color).getD 0)

/-- The inner `for (const blueSol of blueSolutions)` loop of `runSolver`:
push a combined solution per blue solution, breaking once 50 are
collected. -/
def blueCombineLoop (greenSol : ColorSol) :
    List ColorSol → List Solution → List Solution
  | [], sols => sols
  | blueSol :: rest, sols =>
    let sols' := sols ++
      [⟨greenSol.cells, blueSol.cells, greenSol.placements, blueSol.placements⟩]
    if 50 ≤ sols'.length then sols' else blueCombineLoop greenSol rest sols'

/-- The outer `for (const greenSol of greenSolutions)` loop of `runSolver`:
solve for blue against each green solution (or push the green-only solution
when blue has no requirements), breaking once 50 solutions are collected. -/
def greenCombineLoop (allPlacements : List Placement) (gridRows gridCols : Nat)
    (rowReqs colReqs : List Req) (blockedCells : List Cell) (hasBlueReq : Bool) :
    List ColorSol → List Solution → List Solution
  | [], sols => sols
  | greenSol :: rest, sols =>
    let sols' :=
      if hasBlueReq then
        let forbiddenForBlue := blockedCells ++ greenSol.cells
        let blueSolutions := solveForColor "blue" allPlacements gridRows gridCols
          rowReqs colReqs forbiddenForBlue
        blueCombineLoop greenSol blueSolutions sols
      else
        sols ++ [⟨greenSol.cells, [], greenSol.placements, []⟩]
    if 50 ≤ sols'.length then sols'
    else greenCombineLoop allPlacements gridRows gridCols rowReqs colReqs
      blockedCells hasBlueReq rest sols'

/-- The source's `runSolver` (the `solve_counts` entry point). -/
def runSolver (gridRows gridCols : Nat) (gridState : List (List CellState))
    (rowReqs colReqs : List Req) (enabledShapes : List String) : SolverResult :=
  let blockedCells := blockedCellsOf gridRows gridCols gridState
  let hasGreenReq := hasColorReq rowReqs colReqs "green"
  let hasBlueReq := hasColorReq rowReqs colReqs "blue"
  if !hasGreenReq && !hasBlueReq then
    .failure "No requirements specified"
  else
    let allPlacements := generateAllPlacements gridRows gridCols blockedCells enabledShapes
    if allPlacements.isEmpty then
      .failure "No valid shape placements possible"
    else
      let greenSolutions :=
        if hasGreenReq then
          solveForColor "green" allPlacements gridRows gridCols rowReqs colReqs blockedCells
        else [⟨[], []⟩]
      if hasGreenReq && greenSolutions.isEmpty then
        .failure "No valid green configuration found"
      else
        let solutions := greenCombineLoop allPlacements gridRows gridCols
          rowReqs colReqs blockedCells hasBlueReq greenSolutions []
        if solutions.isEmpty then
          .failure "No valid solution found"
        else
          .success solutions

/-! ### Exact-count per-color search (`solveForColorWithCounts` and
`solveForColorWithCountsSimple`) -/

/-- One recorded exact-count solution (green variant): snapshot of the
placement stack, the used-cell set, and the set of consumed instance
indices. -/
structure ExactSol where
  placements : List Placement
  cells : List Cell
  usedShapeIndices : List Nat
deriving DecidableEq

/-- Mutable state of the exact-count backtracker (green variant). -/
structure ExactState where
  rowCounts : List Nat
  colCounts : List Nat
  used : List Cell
  current : List Placement
  usedIdx : List Nat
  sols : List ExactSol
deriving DecidableEq

/-- Place one instance (index `i`) at placement `p` in the exact-count
state. -/
def placeExact (st : ExactState) (i : Nat) (p : Placement) : ExactState :=
  { st with
    current := st.current ++ [p]
    usedIdx := st.usedIdx ++ [i]
    used := st.used ++ p.cells
    rowCounts := p.cells.foldl (fun l rc => bumpAt l rc.1.toNat) st.rowCounts
    colCounts := p.cells.foldl (fun l rc => bumpAt l rc.2.toNat) st.colCounts }

/-- The inner `for (const placement of placements)` loop of
`solveForColorWithCounts` for instance `i`: skip placements overlapping the
used or forbidden cells, recurse through `child` (the `backtrack(i + 1)`
call), propagate the stop flag. -/
def exactInner (child : ExactState → List ExactSol × Bool)
    (forbiddenSet : List Cell) (i : Nat) :
    List Placement → ExactState → List ExactSol × Bool
  | [], st => (st.sols, false)
  | p :: rest, st =>
    if p.cells.any fun cell => st.used.contains cell || forbiddenSet.contains cell then
      exactInner child forbiddenSet i rest st
    else
      let out := child (placeExact st i p)
      if out.2 then out
      else exactInner child forbiddenSet i rest { st with sols := out.1 }

/-- The outer `for (let i = instanceIdx; ...)` loop of
`solveForColorWithCounts`: the remaining instances carry their absolute
index; `entryChild` is the next `backtrack` level, applied to the suffix
after the chosen instance. -/
def exactOuter (entryChild : List (Nat × String) → ExactState → List ExactSol × Bool)
    (placementsByShape : List (String × List Placement)) (forbiddenSet : List Cell) :
    List (Nat × String) → ExactState → List ExactSol × Bool
  | [], st => (st.sols, false)
  | (i, shapeId) :: rest, st =>
    let placements := (placementsByShape.lookup shapeId).getD []
    let out := exactInner (fun st' => entryChild rest st') forbiddenSet i placements st
    if out.2 then out
    else exactOuter entryChild placementsByShape forbiddenSet rest { st with sols := out.1 }

/-- One `backtrack(instanceIdx)` call of `solveForColorWithCounts`: record
a solution on an exact match (stopping at the 100th), prune on exceeded
counts, then iterate the remaining instances. Fuel only bounds the depth
and never runs out when started above the instance count. -/
def exactEntry (rowReqs colReqs : List Req) (color : String)
    (placementsByShape : List (String × List Placement)) (forbiddenSet : List Cell) :
    Nat → List (Nat × String) → ExactState → List ExactSol × Bool
  | 0, _, st => (st.sols, false)
  | fuel + 1, instRest, st =>
    let go := fun (st : ExactState) =>
      if countsExceed st.rowCounts st.colCounts rowReqs colReqs color then
        (st.sols, false)
      else
        exactOuter (fun rest st' =>
            exactEntry rowReqs colReqs color placementsByShape forbiddenSet fuel rest st')
          placementsByShape forbiddenSet instRest st
    if countsMatch st.rowCounts st.colCounts rowReqs colReqs color then
      let st' := { st with sols := st.sols ++ [⟨st.current, st.used, st.usedIdx⟩] }
      if 100 ≤ st'.sols.length then (st'.sols, true) else go st'
    else go st

/-- The source's `solveForColorWithCounts`. -/
def solveForColorWithCounts (color : String) (shapeInstances : List String)
    (placementsByShape : List (String × List Placement)) (gridRows gridCols : Nat)
    (rowReqs colReqs : List Req) (forbiddenCells : List Cell) : List ExactSol :=
  let instances := shapeInstances.enum
  (exactEntry rowReqs colReqs color placementsByShape forbiddenCells
    (instances.length + 1) instances
    { rowCounts := List.replicate gridRows 0
      colCounts := List.replicate gridCols 0
      used := []
      current := []
      usedIdx := []
      sols := [] }).1

/-- Inner placement loop of `solveForColorWithCountsSimple` (identical to
the green variant except that no instance indices are tracked). -/
def simpleInner (child : FreeState → List ColorSol × Bool)
    (forbiddenSet : List Cell) :
    List Placement → FreeState → List ColorSol × Bool
  | [], st => (st.sols, false)
  | p :: rest, st =>
    if p.cells.any fun cell => st.used.contains cell || forbiddenSet.contains cell then
      simpleInner child forbiddenSet rest st
    else
      let out := child (placeFree st p)
      if out.2 then out
      else simpleInner child forbiddenSet rest { st with sols := out.1 }

/-- Outer instance loop of `solveForColorWithCountsSimple`. -/
def simpleOuter (entryChild : List String → FreeState → List ColorSol × Bool)
    (placementsByShape : List (String × List Placement)) (forbiddenSet : List Cell) :
    List String → FreeState → List ColorSol × Bool
  | [], st => (st.sols, false)
  | shapeId :: rest, st =>
    let placements := (placementsByShape.lookup shapeId).getD []
    let out := simpleInner (fun st' => entryChild rest st') forbiddenSet placements st
    if out.2 then out
    else simpleOuter entryChild placementsByShape forbiddenSet rest { st with sols := out.1 }

/-- One `backtrack` call of `solveForColorWithCountsSimple`. -/
def simpleEntry (rowReqs colReqs : List Req) (color : String)
    (placementsByShape : List (String × List Placement)) (forbiddenSet : List Cell) :
    Nat → List String → FreeState → List ColorSol × Bool
  | 0, _, st => (st.sols, false)
  | fuel + 1, instRest, st =>
    let go := fun (st : FreeState) =>
      if countsExceed st.rowCounts st.colCounts rowReqs colReqs color then
        (st.sols, false)
      else
        simpleOuter (fun rest st' =>
            simpleEntry rowReqs colReqs color placementsByShape forbiddenSet fuel rest st')
          placementsByShape forbiddenSet instRest st
    if countsMatch st.rowCounts st.colCounts rowReqs colReqs color then
      let st' := { st with sols := st.sols ++ [⟨st.current, st.used⟩] }
      if 100 ≤ st'.sols.length then (st'.sols, true) else go st'
    else go st

/-- The source's `solveForColorWithCountsSimple`. -/
def solveForColorWithCountsSimple (color : String) (shapeInstances : List String)
    (placementsByShape : List (String × List Placement)) (gridRows gridCols : Nat)
    (rowReqs colReqs : List Req) (forbiddenCells : List Cell) : List ColorSol :=
  (simpleEntry rowReqs colReqs color placementsByShape forbiddenCells
    (shapeInstances.length + 1) shapeInstances
    { rowCounts := List.replicate gridRows 0
      colCounts := List.replicate gridCols 0
      used := []
      current := []
      sols := [] }).1

/-! ### Exact-count whole-puzzle solver (`runSolverWithShapeCounts`) -/

/-- Expand a shape-count object into the instance list (the
`shapeInstances` build loop). -/
def expandShapeInstances (shapeCounts : List (String × Nat)) : List String :=
  shapeCounts.flatMap fun sc => List.replicate sc.2 sc.1

/-- Pre-generated placements per shape id (the `placementsByShape` object). -/
def placementsByShapeOf (shapeCounts : List (String × Nat)) (gridRows gridCols : Nat)
    (blockedSet : List Cell) : List (String × List Placement) :=
  shapeCounts.map fun sc =>
    (sc.1, generatePlacementsForShape sc.1 gridRows gridCols blockedSet)

/-- The inner blue loop of `runSolverWithShapeCounts` (push one combined
solution per blue solution, break at 50). -/
def exactBlueCombineLoop (greenSol : ExactSol) :
    List ColorSol → List Solution → List Solution
  | [], sols => sols
  | blueSol :: rest, sols =>
    let sols' := sols ++
      [⟨greenSol.cells, blueSol.cells, greenSol.placements, blueSol.placements⟩]
    if 50 ≤ sols'.length then sols' else exactBlueCombineLoop greenSol rest sols'

/-- The outer green loop of `runSolverWithShapeCounts`: for each green
solution, solve blue over the instances the green solution left unused
(skipping the green solution entirely when blue has requirements but no
instances remain), breaking once 50 solutions are collected. The source's
`continue` on the no-instances path skips the trailing 50-check; since the
solutions list is unchanged there and the loop only ever reaches an
iteration with fewer than 50 solutions, the check is false on that path
anyway, so the single trailing check below is equivalent. -/
def exactGreenCombineLoop (shapeInstances : List String)
    (placementsByShape : List (String × List Placement)) (gridRows gridCols : Nat)
    (rowReqs colReqs : List Req) (blockedCells : List Cell) (hasBlueReq : Bool) :
    List ExactSol → List Solution → List Solution
  | [], sols => sols
  | greenSol :: rest, sols =>
    let forbiddenForBlue := blockedCells ++ greenSol.cells
    let remainingShapeInstances :=
      (shapeInstances.enum.filter fun iv => !(greenSol.usedShapeIndices.contains iv.1)).map
        Prod.snd
    let sols' :=
      if hasBlueReq then
        if remainingShapeInstances.isEmpty then sols
        else
          let blueSolutions := solveForColorWithCountsSimple "blue"
            remainingShapeInstances placementsByShape gridRows gridCols
            rowReqs colReqs forbiddenForBlue
          exactBlueCombineLoop greenSol blueSolutions sols
      else
        sols ++ [⟨greenSol.cells, [], greenSol.placements, []⟩]
    if 50 ≤ sols'.length then sols'
    else exactGreenCombineLoop shapeInstances placementsByShape gridRows gridCols
      rowReqs colReqs blockedCells hasBlueReq rest sols'

/-- The source's `runSolverWithShapeCounts` (the `solve_exact_counts` entry
point). Note that, unlike `runSolver`, it has no emptiness check on the
generated placements. -/
def runSolverWithShapeCounts (gridRows gridCols : Nat)
    (gridState : List (List CellState)) (rowReqs colReqs : List Req)
    (shapeCounts : List (String × Nat)) : SolverResult :=
  let blockedCells := blockedCellsOf gridRows gridCols gridState
  let hasGreenReq := hasColorReq rowReqs colReqs "green"
  let hasBlueReq := hasColorReq rowReqs colReqs "blue"
  if !hasGreenReq && !hasBlueReq then
    .failure "No requirements specified"
  else
    let shapeInstances := expandShapeInstances shapeCounts
    let placementsByShape := placementsByShapeOf shapeCounts gridRows gridCols blockedCells
    let greenSolutions :=
      if hasGreenReq then
        solveForColorWithCounts "green" shapeInstances placementsByShape
          gridRows gridCols rowReqs colReqs blockedCells
      else [⟨[], [], []⟩]
    if hasGreenReq && greenSolutions.isEmpty then
      .failure "No valid green configuration found with selected shapes"
    else
      let solutions := exactGreenCombineLoop shapeInstances placementsByShape
        gridRows gridCols rowReqs colReqs blockedCells hasBlueReq greenSolutions []
      if solutions.isEmpty then
        .failure "No valid solution found with selected shape counts"
      else
        .success solutions

/-! ### Fit-all-pieces solver (`runFitAllPiecesSolver`) -/

/-- Mutable state of the fit-all backtracker. -/
structure FitState where
  used : List Cell
  current : List Placement
  sols : List Solution
deriving DecidableEq

/-- Place one placement in the fit-all state. -/
def placeFit (st : FitState) (p : Placement) : FitState :=
  { st with current := st.current ++ [p], used := st.used ++ p.cells }

/-- The `for (const placement of placements)` loop of the fit-all
`backtrack`: skip overlapping placements, recurse through `child` (the
`backtrack(instanceIdx + 1)` call), propagate the stop flag. -/
def fitInner (child : FitState → List Solution × Bool) :
    List Placement → FitState → List Solution × Bool
  | [], st => (st.sols, false)
  | p :: rest, st =>
    if p.cells.any fun cell => st.used.contains cell then
      fitInner child rest st
    else
      let out := child (placeFit st p)
      if out.2 then out
      else fitInner child rest { st with sols := out.1 }

/-- One `backtrack(instanceIdx)` call of `runFitAllPiecesSolver`, indexed
by the suffix of instances still to place. When all instances are placed it
records the solution under the green field and reports stop only once 50
solutions are collected. -/
def fitEntry (placementsByShape : List (String × List Placement)) :
    List String → FitState → List Solution × Bool
  | [], st =>
    let allCells := st.current.flatMap fun p => p.cells
    let sols' := st.sols ++ [⟨allCells, [], st.current, []⟩]
    (sols', 50 ≤ sols'.length)
  | shapeId :: rest, st =>
    let placements := (placementsByShape.lookup shapeId).getD []
    fitInner (fun st' => fitEntry placementsByShape rest st') placements st

/-- The source's `runFitAllPiecesSolver` (the `fit_all_pieces` entry
point). -/
def runFitAllPiecesSolver (gridRows gridCols : Nat) (blockedCells : List Cell)
    (shapeCounts : List (String × Nat)) : SolverResult :=
  let shapeInstances := expandShapeInstances shapeCounts
  if shapeInstances.isEmpty then
    .failure "No shapes to place"
  else
    let placementsByShape := placementsByShapeOf shapeCounts gridRows gridCols blockedCells
    match placementsByShape.find? fun sp => sp.2.isEmpty with
    | some sp =>
      .failure ("No valid placements for shape: " ++
        (((SHAPE_LIBRARY.lookup sp.1).map fun e => e.name).getD ""))
    | none =>
      let solutions := (fitEntry placementsByShape shapeInstances ⟨[], [], []⟩).1
      if solutions.isEmpty then
        .failure "Could not fit all pieces on the grid"
      else
        .success solutions

/-! ### Generator (`PuzzleGenerator`)

Randomness is an oracle: a list of naturals consumed left to right.
`Math.floor(Math.random() * n)` reads the next entry modulo `n`, and the
fair coin `Math.random() < 0.5` reads the next entry modulo 2. Every run of
the source corresponds to an oracle and every oracle value below the bound
is realizable, so properties of all oracles cover all runs. -/

/-- Pop the next oracle value (0 once the oracle is exhausted). -/
def randTake (o : List Nat) : Nat × List Nat :=
  (o.headD 0, o.tail)

/-- The JS idiom `Math.floor(Math.random() * n)`. -/
def randBelow (n : Nat) (o : List Nat) : Nat × List Nat :=
  let ko := randTake o
  (if n = 0 then 0 else ko.1 % n, ko.2)

/-- The JS idiom `Math.random() < 0.5`. -/
def randCoin (o : List Nat) : Bool × List Nat :=
  let ko := randTake o
  (ko.1 % 2 = 0, ko.2)

/-- Generator grid. -/
abbrev Grid := List (List CellState)

/-- Read a grid cell (out-of-range reads give `empty`; the generator only
reads in range). -/
def gridGetN (g : Grid) (r c : Nat) : CellState :=
  (g.getD r []).getD c .empty

/-- Write a grid cell. -/
def gridSetN (g : Grid) (r c : Nat) (v : CellState) : Grid :=
  g.set r ((g.getD r []).set c v)

/-- Normalized generator configuration (after `generate` has applied its
defaults). -/
structure GenConfig where
  gridRows : Nat
  gridCols : Nat
  colors : List String
  blockers : Bool
  locks : Bool
  shapePool : List String
deriving DecidableEq

/-- Result of `_allocateBudget` (Phase 1). `(R + C) / 1.5` floored equals
`2 * (R + C) / 3` in natural division, exactly as the double computation
rounds for every realistic grid size. -/
structure GenBudget where
  totalCells : Nat
  colorCount : Nat
  reserveNeeded : Nat
  availableForShapes : Int
  budgetPerColor : Int
  colorBudgets : List (String × Int)
deriving DecidableEq

/-- Phase 1: `_allocateBudget`. -/
def allocateBudget (cfg : GenConfig) : GenBudget :=
  let totalCells := cfg.gridRows * cfg.gridCols
  let colorCount := cfg.colors.length
  let minReserve := 2 * (cfg.gridRows + cfg.gridCols) / 3
  let reserveNeeded := if cfg.blockers || cfg.locks then minReserve else 0
  let availableForShapes : Int := (totalCells : Int) - (reserveNeeded : Int)
  let budgetPerColor :=
    if colorCount = 0 then 0 else availableForShapes.fdiv (colorCount : Int)
  { totalCells := totalCells
    colorCount := colorCount
    reserveNeeded := reserveNeeded
    availableForShapes := availableForShapes
    budgetPerColor := budgetPerColor
    colorBudgets := cfg.colors.foldl (fun acc color => objSet acc color budgetPerColor) [] }

/-- One shape picked in Phase 2. -/
structure SelShape where
  shapeId : String
  rotationIndex : Nat
  cells : List Cell
  cellCount : Nat
deriving DecidableEq

/-- Fallback library entry for a lookup the source never misses. -/
def emptyShapeEntry : ShapeEntry :=
  { name := "", baseShape := [], rotations := [], cellCount := 0 }

/-- The `while (remaining > 0)` shape-picking loop of `_selectShapes` for
one color. Fuel bounds the iterations; it is started above `remaining`, and
every library shape has a positive cell count, so it never runs out on the
library the source uses. -/
def selectLoop (pool : List String) :
    Nat → Int → List SelShape → List Nat → List SelShape × Int × List Nat
  | 0, remaining, shapes, o => (shapes, remaining, o)
  | fuel + 1, remaining, shapes, o =>
    if remaining ≤ 0 then (shapes, remaining, o)
    else
      let validShapes := pool.filter fun shapeId =>
        match SHAPE_LIBRARY.lookup shapeId with
        | some shape => (shape.cellCount : Int) ≤ remaining
        | none => false
      if validShapes.isEmpty then (shapes, remaining, o)
      else
        let io := randBelow validShapes.length o
        let shapeId := validShapes.getD io.1 ""
        let shape := (SHAPE_LIBRARY.lookup shapeId).getD emptyShapeEntry
        let ro := randBelow shape.rotations.length io.2
        selectLoop pool fuel (remaining - (shape.cellCount : Int))
          (shapes ++ [{ shapeId := shapeId
                        rotationIndex := ro.1
                        cells := shape.rotations.getD ro.1 []
                        cellCount := shape.cellCount }]) ro.2

/-- Result of `_selectShapes` (Phase 2). -/
structure ShapeSelection where
  success : Bool
  colorShapes : List (String × List SelShape)
  colorRemainders : List (String × Int)
  totalRemainder : Int
deriving DecidableEq

/-- Per-color driver of `_selectShapes`: on the first color whose shape
list comes out empty, stop with `success := false` and the partial maps. -/
def selectShapesGo (cfg : GenConfig) (budget : GenBudget) :
    List String → ShapeSelection → List Nat → ShapeSelection × List Nat
  | [], sel, o => (sel, o)
  | color :: rest, sel, o =>
    let remaining0 := (objGet budget.colorBudgets color).getD 0
    let out := selectLoop cfg.shapePool (remaining0.toNat + 1) remaining0 [] o
    if out.1.isEmpty then ({ sel with success := false }, out.2.2)
    else
      selectShapesGo cfg budget rest
        { sel with
          colorShapes := objSet sel.colorShapes color out.1
          colorRemainders := objSet sel.colorRemainders color out.2.1
          totalRemainder := sel.totalRemainder + out.2.1 } out.2.2

/-- Phase 2: `_selectShapes`. -/
def selectShapes (cfg : GenConfig) (budget : GenBudget) (o : List Nat) :
    ShapeSelection × List Nat :=
  selectShapesGo cfg budget cfg.colors
    { success := true, colorShapes := [], colorRemainders := [], totalRemainder := 0 } o

/-- Result of `_calculateBlockerLockBudget` (Phase 3); budgets are kept as
naturals, which matches the source because the remainder and the reserve
are never negative. -/
structure BlockerLockBudget where
  blockerBudget : Nat
  lockBudget : Nat
  totalRemainder : Int
deriving DecidableEq

/-- Phase 3: `_calculateBlockerLockBudget` (the deficit branch of the
source only logs a warning and changes nothing). -/
def calcBlockerLockBudget (cfg : GenConfig) (budget : GenBudget)
    (sel : ShapeSelection) : BlockerLockBudget :=
  let totalRemainder := sel.totalRemainder + (budget.reserveNeeded : Int)
  if cfg.blockers && cfg.locks then
    { blockerBudget := (totalRemainder.fdiv 2).toNat
      lockBudget := (totalRemainder - totalRemainder.fdiv 2).toNat
      totalRemainder := totalRemainder }
  else if cfg.blockers then
    { blockerBudget := totalRemainder.toNat, lockBudget := 0
      totalRemainder := totalRemainder }
  else if cfg.locks then
    { blockerBudget := 0, lockBudget := totalRemainder.toNat
      totalRemainder := totalRemainder }
  else
    { blockerBudget := 0, lockBudget := 0, totalRemainder := totalRemainder }

/-- The random remainder-distribution loop of `_distributeLocks`. -/
def distributeRemainder (colors : List String) :
    Nat → List (String × Nat) → List Nat → List (String × Nat) × List Nat
  | 0, dist, o => (dist, o)
  | rem + 1, dist, o =>
    let io := randBelow colors.length o
    let randomColor := colors.getD io.1 ""
    distributeRemainder colors rem (objInc dist randomColor) io.2

/-- Phase 4: `_distributeLocks`. -/
def distributeLocks (cfg : GenConfig) (bl : BlockerLockBudget) (o : List Nat) :
    List (String × Nat) × List Nat :=
  if bl.lockBudget = 0 then
    (cfg.colors.foldl (fun acc c => objSet acc c 0) [], o)
  else
    let colorCount := cfg.colors.length
    let locksPerColor := if colorCount = 0 then 0 else bl.lockBudget / colorCount
    let remainder := if colorCount = 0 then 0 else bl.lockBudget % colorCount
    let dist := cfg.colors.foldl (fun acc c => objSet acc c locksPerColor) []
    distributeRemainder cfg.colors remainder dist o

/-- The inner four-mirror write of the symmetrical blocker loop: place at
each still-empty mirror position while the count allows. -/
def placeMirrorPositions :
    List (Nat × Nat) → Grid → List Cell → Nat → Nat → Grid × List Cell × Nat
  | [], grid, blockers, placed, _ => (grid, blockers, placed)
  | (pr, pc) :: rest, grid, blockers, placed, count =>
    if count ≤ placed then (grid, blockers, placed)
    else if gridGetN grid pr pc = .empty then
      placeMirrorPositions rest (gridSetN grid pr pc .blocked)
        (blockers ++ [((pr : Int), (pc : Int))]) (placed + 1) count
    else
      placeMirrorPositions rest grid blockers placed count

/-- The symmetrical branch of `_placeBlockers`. The source loop has no
attempt bound; fuel renders the runs the source completes. -/
def placeBlockersSym (rows cols : Nat) :
    Nat → Grid → List Cell → Nat → Nat → List Nat → Grid × List Cell × List Nat
  | 0, grid, blockers, _, _, o => (grid, blockers, o)
  | fuel + 1, grid, blockers, placed, count, o =>
    if count ≤ placed then (grid, blockers, o)
    else
      let ro := randBelow ((rows + 1) / 2) o
      let co := randBelow ((cols + 1) / 2) ro.2
      let r := ro.1
      let c := co.1
      let positions := [(r, c), (r, cols - 1 - c), (rows - 1 - r, c),
        (rows - 1 - r, cols - 1 - c)].filter fun p => gridGetN grid p.1 p.2 = .empty
      let out := placeMirrorPositions positions grid blockers placed count
      placeBlockersSym rows cols fuel out.1 out.2.1 out.2.2 count co.2

/-- The chaotic branch of `_placeBlockers`, bounded by `count * 10`
attempts. -/
def placeBlockersChaotic (rows cols : Nat) :
    Nat → Grid → List Cell → Nat → Nat → List Nat → Grid × List Cell × List Nat
  | 0, grid, blockers, _, _, o => (grid, blockers, o)
  | attemptsLeft + 1, grid, blockers, placed, count, o =>
    if count ≤ placed then (grid, blockers, o)
    else
      let ro := randBelow rows o
      let co := randBelow cols ro.2
      if gridGetN grid ro.1 co.1 = .empty then
        placeBlockersChaotic rows cols attemptsLeft
          (gridSetN grid ro.1 co.1 .blocked)
          (blockers ++ [((ro.1 : Int), (co.1 : Int))]) (placed + 1) count co.2
      else
        placeBlockersChaotic rows cols attemptsLeft grid blockers placed count co.2

/-- The source's `_placeBlockers`. -/
def placeBlockers (grid : Grid) (count : Nat) (strategy : String) (o : List Nat) :
    Grid × List Cell × List Nat :=
  let rows := grid.length
  let cols := (grid.headD []).length
  if strategy = "symmetrical" then
    placeBlockersSym rows cols (o.length + 1) grid [] 0 count o
  else
    placeBlockersChaotic rows cols (count * 10) grid [] 0 count o

/-- The per-color symmetrical lock loop of `_placeLocks` (single random
placements, no attempt cap; fuel renders the runs the source completes). -/
def placeLocksSym (rows cols : Nat) (color : String) :
    Nat → Grid → List Cell → Nat → Nat → List Nat → Grid × List Cell × List Nat
  | 0, grid, cells, _, _, o => (grid, cells, o)
  | fuel + 1, grid, cells, placed, count, o =>
    if count ≤ placed then (grid, cells, o)
    else
      let ro := randBelow rows o
      let co := randBelow cols ro.2
      if gridGetN grid ro.1 co.1 = .empty then
        placeLocksSym rows cols color fuel
          (gridSetN grid ro.1 co.1 (.locked color))
          (cells ++ [((ro.1 : Int), (co.1 : Int))]) (placed + 1) count co.2
      else
        placeLocksSym rows cols color fuel grid cells placed count co.2

/-- The per-color chaotic lock loop of `_placeLocks`, bounded by
`count * 10` attempts. -/
def placeLocksChaotic (rows cols : Nat) (color : String) :
    Nat → Grid → List Cell → Nat → Nat → List Nat → Grid × List Cell × List Nat
  | 0, grid, cells, _, _, o => (grid, cells, o)
  | attemptsLeft + 1, grid, cells, placed, count, o =>
    if count ≤ placed then (grid, cells, o)
    else
      let ro := randBelow rows o
      let co := randBelow cols ro.2
      if gridGetN grid ro.1 co.1 = .empty then
        placeLocksChaotic rows cols color attemptsLeft
          (gridSetN grid ro.1 co.1 (.locked color))
          (cells ++ [((ro.1 : Int), (co.1 : Int))]) (placed + 1) count co.2
      else
        placeLocksChaotic rows cols color attemptsLeft grid cells placed count co.2

/-- The source's `_placeLocks`, iterating the distribution in color
order. -/
def placeLocks (grid : Grid) (distribution : List (String × Nat)) (strategy : String)
    (o : List Nat) : Grid × List (String × List Cell) × List Nat :=
  let rows := grid.length
  let cols := (grid.headD []).length
  distribution.foldl
    (fun acc cd =>
      let out :=
        if strategy = "symmetrical" then
          placeLocksSym rows cols cd.1 (acc.2.2.length + 1) acc.1 [] 0 cd.2 acc.2.2
        else
          placeLocksChaotic rows cols cd.1 (cd.2 * 10) acc.1 [] 0 cd.2 acc.2.2
      (out.1, acc.2.1 ++ [(cd.1, out.2.1)], out.2.2))
    (grid, [], o)

/-- One placement found by the generator (`_findShapePlacement`). -/
structure GenPlacement where
  shapeId : String
  rotationIndex : Nat
  position : Cell
  cells : List Cell
  color : String
deriving DecidableEq

/-- The source's `_findShapePlacement`: collect every anchor whose absolute
cells are all empty, then pick one uniformly at random. -/
def findShapePlacement (grid : Grid) (shape : SelShape) (color : String)
    (o : List Nat) : Option GenPlacement × List Nat :=
  let rows := grid.length
  let cols := (grid.headD []).length
  let bounds := getShapeBounds shape.cells
  let validPositions :=
    (List.range ((rows : Int) - bounds.height + 1).toNat).flatMap fun r =>
      (List.range ((cols : Int) - bounds.width + 1).toNat).filterMap fun c =>
        let cells := shape.cells.map fun sc => ((r : Int) + sc.1, (c : Int) + sc.2)
        if cells.all fun rc => gridGetN grid rc.1.toNat rc.2.toNat = .empty then
          some ((r, c), cells)
        else none
  if validPositions.isEmpty then (none, o)
  else
    let io := randBelow validPositions.length o
    let chosen := validPositions.getD io.1 ((0, 0), [])
    (some { shapeId := shape.shapeId
            rotationIndex := shape.rotationIndex
            position := ((chosen.1.1 : Int), (chosen.1.2 : Int))
            cells := chosen.2
            color := color }, io.2)

/-- Result of `_findValidPlacement`. -/
structure ValidPlacementResult where
  grid : Grid
  shapes : List (String × List GenPlacement)
  solution : List (String × List Cell)
deriving DecidableEq

/-- Shape loop of `_findValidPlacement` for one color: place each shape in
turn, marking its cells, failing as soon as one shape has no anchor. -/
def placeShapesForColor (color : String) :
    List SelShape → Grid → List GenPlacement → List Nat →
    Option (Grid × List GenPlacement) × List Nat
  | [], grid, placements, o => (some (grid, placements), o)
  | shape :: rest, grid, placements, o =>
    let out := findShapePlacement grid shape color o
    match out.1 with
    | none => (none, out.2)
    | some placement =>
      let grid' := placement.cells.foldl
        (fun g rc => gridSetN g rc.1.toNat rc.2.toNat (.filled color)) grid
      placeShapesForColor color rest grid' (placements ++ [placement]) out.2

/-- Color loop of `_findValidPlacement`. -/
def placeColors :
    List (String × List SelShape) → Grid → List (String × List GenPlacement) →
    List (String × List Cell) → List Nat → Option ValidPlacementResult × List Nat
  | [], grid, placedShapes, solution, o => (some ⟨grid, placedShapes, solution⟩, o)
  | (color, shapes) :: rest, grid, placedShapes, solution, o =>
    let out := placeShapesForColor color shapes grid [] o
    match out.1 with
    | none => (none, out.2)
    | some gp =>
      placeColors rest gp.1
        (objSet placedShapes color gp.2)
        (objSet solution color (gp.2.flatMap fun p => p.cells)) out.2

/-- The source's `_findValidPlacement` (the working grid starts as a copy
of the input grid, which the pure embedding gets for free). -/
def findValidPlacement (grid : Grid) (colorShapes : List (String × List SelShape))
    (o : List Nat) : Option ValidPlacementResult × List Nat :=
  placeColors colorShapes grid [] [] o

/-- Swap two list positions (the Fisher–Yates swap). -/
def listSwap {α : Type} (l : List α) (i j : Nat) : List α :=
  match l.get? i, l.get? j with
  | some a, some b => (l.set i b).set j a
  | _, _ => l

/-- The shuffle loop of `_findEmptyCells`, walking `i` from the end of the
list down to 1. -/
def shuffleGo {α : Type} : Nat → List α → List Nat → List α × List Nat
  | 0, l, o => (l, o)
  | i + 1, l, o =>
    let jo := randBelow (i + 2) o
    shuffleGo i (listSwap l (i + 1) jo.1) jo.2

/-- The source's `_findEmptyCells`: collect the empty cells row-major, then
shuffle them. -/
def findEmptyCells (grid : Grid) (o : List Nat) : List Cell × List Nat :=
  let empty := (List.range grid.length).flatMap fun r =>
    (List.range (grid.headD []).length).filterMap fun c =>
      if gridGetN grid r c = .empty then some ((r : Int), (c : Int)) else none
  match empty.length with
  | 0 => (empty, o)
  | n + 1 => shuffleGo n empty o

/-- The source's `_placeLocksinEmptyCells`: hand consecutive runs of the
shuffled empty cells to the colors in distribution order. -/
def placeLocksinEmptyCells (emptyCells : List Cell)
    (distribution : List (String × Nat)) : List (String × List Cell) :=
  (distribution.foldl
    (fun acc cd =>
      let slice := (emptyCells.drop acc.2).take cd.2
      (acc.1 ++ [(cd.1, slice)], acc.2 + slice.length))
    ([], 0)).1

/-- Successful output of `_placeAndValidate`. -/
structure PlacementOutcome where
  grid : Grid
  shapes : List (String × List GenPlacement)
  blockers : List Cell
  locks : List (String × List Cell)
  solution : List (String × List Cell)
deriving DecidableEq

/-- The blocker/lock inner attempt loop of `_placeAndValidate` (up to five
attempts). -/
def placeAttempts (cfg : GenConfig) (colorShapes : List (String × List SelShape))
    (bl : BlockerLockBudget) (dist : List (String × Nat)) (strategy : String) :
    Nat → List Nat → Option PlacementOutcome × List Nat
  | 0, o => (none, o)
  | n + 1, o =>
    let grid : Grid := List.replicate cfg.gridRows (List.replicate cfg.gridCols .empty)
    let bOut := placeBlockers grid bl.blockerBudget strategy o
    let lOut := placeLocks bOut.1 dist strategy bOut.2.2
    let pOut := findValidPlacement lOut.1 colorShapes lOut.2.2
    match pOut.1 with
    | some res =>
      (some { grid := res.grid, shapes := res.shapes, blockers := bOut.2.1
              locks := lOut.2.1, solution := res.solution }, pOut.2)
    | none => placeAttempts cfg colorShapes bl dist strategy n pOut.2

/-- The source's `_placeAndValidate`: five attempts with blockers and
locks, then the fallback on an empty grid that writes blockers and locks
into shuffled empty cells afterwards. -/
def placeAndValidate (cfg : GenConfig) (colorShapes : List (String × List SelShape))
    (bl : BlockerLockBudget) (dist : List (String × Nat)) (strategy : String)
    (o : List Nat) : Option PlacementOutcome × List Nat :=
  let attemptOut := placeAttempts cfg colorShapes bl dist strategy 5 o
  match attemptOut.1 with
  | some res => (some res, attemptOut.2)
  | none =>
    let grid : Grid := List.replicate cfg.gridRows (List.replicate cfg.gridCols .empty)
    let pOut := findValidPlacement grid colorShapes attemptOut.2
    match pOut.1 with
    | none => (none, pOut.2)
    | some res =>
      let eOut := findEmptyCells res.grid pOut.2
      let emptyCells := eOut.1
      let blockers := emptyCells.take bl.blockerBudget
      let remainingCells := emptyCells.drop bl.blockerBudget
      let locks := placeLocksinEmptyCells remainingCells dist
      let gridB := blockers.foldl
        (fun g rc => gridSetN g rc.1.toNat rc.2.toNat .blocked) res.grid
      let gridL := locks.foldl
        (fun g cl => cl.2.foldl
          (fun g rc => gridSetN g rc.1.toNat rc.2.toNat (.locked cl.1)) g) gridB
      (some { grid := gridL, shapes := res.shapes, blockers := blockers
              locks := locks, solution := res.solution }, eOut.2)

/-- Whether a cell state counts toward a color's displayed requirement:
`cell === color || cell === locked-color` in the source. -/
def cellMatches (cell : CellState) (color : String) : Bool :=
  cell = .filled color || cell = .locked color

/-- Requirement object initialization (`rowReq[color] = 0` per color). -/
def initObj (colors : List String) : Req :=
  colors.foldl (fun acc k => objSet acc k 0) []

/-- The inner color loop of `_calculateDisplayRequirements` for one cell. -/
def incStep (colors : List String) (cell : CellState) (o : Req) : Req :=
  colors.foldl (fun acc k => if cellMatches cell k then objInc acc k else acc) o

/-- Derived row/column requirements. -/
structure Requirements where
  rows : List Req
  cols : List Req
deriving DecidableEq

/-- Phase 7: `_calculateDisplayRequirements`. -/
def calcDisplayRequirements (grid : Grid) (colors : List String) : Requirements :=
  let rows := grid.length
  let cols := (grid.headD []).length
  { rows := (List.range rows).map fun r =>
      (List.range cols).foldl (fun acc c => incStep colors (gridGetN grid r c) acc)
        (initObj colors)
    cols := (List.range cols).map fun c =>
      (List.range rows).foldl (fun acc r => incStep colors (gridGetN grid r c) acc)
        (initObj colors) }

/-- A generated puzzle. -/
structure Puzzle where
  grid : Grid
  shapes : List (String × List GenPlacement)
  blockers : List Cell
  locks : List (String × List Cell)
  requirements : Requirements
  solution : List (String × List Cell)
deriving DecidableEq

/-- One `_attemptGeneration` run. The source's `generate` retries this in a
4-second wall-clock loop and returns the puzzle of the first successful
attempt, so the puzzles `generate` can return are exactly the puzzles some
oracle makes `attemptGeneration` produce. -/
def attemptGeneration (cfg : GenConfig) (o : List Nat) : Option Puzzle × List Nat :=
  let budget := allocateBudget cfg
  let selOut := selectShapes cfg budget o
  if !selOut.1.success then (none, selOut.2)
  else
    let bl := calcBlockerLockBudget cfg budget selOut.1
    let distOut := distributeLocks cfg bl selOut.2
    let coinOut := randCoin distOut.2
    let strategy := if coinOut.1 then "symmetrical" else "chaotic"
    let pOut := placeAndValidate cfg selOut.1.colorShapes bl distOut.1 strategy coinOut.2
    match pOut.1 with
    | none => (none, pOut.2)
    | some res =>
      (some { grid := res.grid
              shapes := res.shapes
              blockers := res.blockers
              locks := res.locks
              requirements := calcDisplayRequirements res.grid cfg.colors
              solution := res.solution }, pOut.2)

/-! ### State-threaded frame for `runSolver` (claim C9) -/

/-- The caller-owned arrays `runSolver` receives. The source mutates only
arrays it allocates itself (`blockedCells`, the count arrays, the used-cell
sets, the stacks); every access to the three inputs is a read, so the
state-threaded rendering of the function returns the store untouched. -/
structure SolverStore where
  gridState : List (List CellState)
  rowReqs : List Req
  colReqs : List Req
deriving DecidableEq

/-- State-threaded `runSolver`: the result, paired with the caller's
arrays after the call. -/
def runSolverSt (gridRows gridCols : Nat) (store : SolverStore)
    (enabledShapes : List String) : SolverResult × SolverStore :=
  (runSolver gridRows gridCols store.gridState store.rowReqs store.colReqs enabledShapes,
    store)

/-! ### Concrete instances used by counterexamples and witnesses -/

/-- A default solution record for safe indexing. -/
def defaultSolution : Solution := ⟨[], [], [], []⟩

/-- A default puzzle record for safe unwrapping. -/
def emptyPuzzle : Puzzle := ⟨[], [], [], [], ⟨[], []⟩, []⟩

/-- The claim C6 reading of the sort key: minimum over the placement's
cells of `r * gridCols + c`. -/
def minPosC (gridCols : Int) (p : Placement) : Int :=
  listMinInt (p.cells.map fun rc => rc.1 * gridCols + rc.2)

/-- A horizontal `line-3` placement at row 1, column 0 of a wide grid. -/
def c6PlacementLow : Placement := ⟨"line-3", 0, [(1, 0), (1, 1), (1, 2)]⟩

/-- A horizontal `line-3` placement at row 0, column 150 of a 200-column
grid. -/
def c6PlacementHigh : Placement := ⟨"line-3", 0, [(0, 150), (0, 151), (0, 152)]⟩

/-- The 2-by-2 grid of the C2 counterexample: cell (0,0) is locked for
blue, everything else empty. -/
def c2Grid : List (List CellState) := [[.locked "blue", .empty], [.empty, .empty]]

/-- Requirements asking for two green cells in every row and column of the
2-by-2 grid. -/
def c2Reqs : List Req := [[("green", 2), ("blue", 0)], [("green", 2), ("blue", 0)]]

/-- The fully blocked 1-by-1 grid of the C4 counterexample. -/
def c4Grid : List (List CellState) := [[.blocked]]

/-- The generator configuration of the C1 failing input: 2-by-3 grid, one
color, blockers off, locks on, shape pool holding only `line-3`. -/
def c1Config : GenConfig :=
  { gridRows := 2, gridCols := 3, colors := ["green"], blockers := false,
    locks := true, shapePool := ["line-3"] }

/-- The random draws of the C1 failing input: pick shape 0 and rotation 0,
take the chaotic strategy, place the three locks at (1,0), (1,1), (1,2),
then pick the only anchor for the line. -/
def c1Oracle : List Nat := [0, 0, 1, 1, 0, 1, 1, 1, 2, 0]

/-- The puzzle the C1 failing input generates. -/
def c1Puzzle : Puzzle := (attemptGeneration c1Config c1Oracle).1.getD emptyPuzzle

/-! ### Claim theorems -/

/-- C8. For every entry of the shape library built by `buildShapeLibrary`,
every stored cell list — the base shape and every generated rotation — is
normalized so that its minimum row and minimum column are both 0. -/
theorem c8_library_normalized :
    SHAPE_LIBRARY.all (fun entry =>
      (listMinInt (entry.2.baseShape.map Prod.fst) = 0 &&
        listMinInt (entry.2.baseShape.map Prod.snd) = 0) &&
      entry.2.rotations.all fun rot =>
        listMinInt (rot.map Prod.fst) = 0 && listMinInt (rot.map Prod.snd) = 0) = true := by
  decide

/-- C9. `runSolver` leaves its input arguments — the grid-state matrix and
the two requirement arrays — unchanged: the source never assigns into
them (its mutations hit only locally allocated arrays and sets), so the
state-threaded rendering `runSolverSt` returns the caller's store exactly
as received. -/
theorem c9_inputs_unchanged (gridRows gridCols : Nat) (store : SolverStore)
    (enabledShapes : List String) :
    (runSolverSt gridRows gridCols store enabledShapes).2 = store := rfl

/-- C1 (code bug). The failing input: `generate` with a 2-by-3 grid, one
color, blockers disabled, locks enabled and shape pool `line-3` succeeds
(under the recorded random draws) with one `line-3` in row 0 and three
green locks in row 1; the per-color multiset the generator selected is
exactly one `line-3`. Feeding `solve_exact_counts` that puzzle's grid,
derived requirements and multiset does not yield a solution: the derived
requirements count the locked cells, which the exact-count solver has no
way to cover with the selected instances, so it fails with the
`NoSolution`-kind message instead of returning the generator's solution. -/
theorem c1_roundtrip_violation :
    (attemptGeneration c1Config c1Oracle).1 = some c1Puzzle ∧
    (((c1Puzzle.shapes.lookup "green").getD []).map fun p => p.shapeId) = ["line-3"] ∧
    c1Puzzle.locks = [("green", [(1, 0), (1, 1), (1, 2)])] ∧
    runSolverWithShapeCounts 2 3 c1Puzzle.grid c1Puzzle.requirements.rows
      c1Puzzle.requirements.cols [("line-3", 1)] =
      .failure "No valid green configuration found with selected shapes" := by
  decide

/-- C2 counterexample. On the 2-by-2 grid whose cell (0,0) is
`LockedFor(blue)`, with requirements of two green cells per row and column
and only `square-4` enabled, `solve_counts` succeeds, and its single
solution's green cells cover the blue-locked cell (0,0) — refuting clause
(c) of the claim (and the solver likewise never enforces clause (b)). -/
theorem c2_counterexample :
    (solutionsOf (runSolver 2 2 c2Grid c2Reqs c2Reqs ["square-4"])).length = 1 ∧
    ((0 : Int), (0 : Int)) ∈
      ((solutionsOf (runSolver 2 2 c2Grid c2Reqs c2Reqs ["square-4"])).getD 0
        defaultSolution).green ∧
    (c2Grid.getD 0 []).getD 0 .empty = .locked "blue" := by
  decide

/-- C4 counterexample. On the fully blocked 1-by-1 grid with a non-zero
green requirement, no pre-valid placement exists, yet
`runSolverWithShapeCounts` fails with the `NoSolution`-kind message
`"No valid green configuration found with selected shapes"` rather than
the claimed `"No valid shape placements possible"`. -/
theorem c4_counterexample :
    hasColorReq [[("green", 1)]] [[("green", 1)]] "green" = true ∧
    generatePlacementsForShape "square-4" 1 1 (blockedCellsOf 1 1 c4Grid) = [] ∧
    runSolverWithShapeCounts 1 1 c4Grid [[("green", 1)]] [[("green", 1)]]
      [("square-4", 1)] =
      .failure "No valid green configuration found with selected shapes" := by
  decide

/-- C5 counterexample. On the empty 1-by-4 grid with one `line-3`
instance, at least one tiling exists, yet `runFitAllPiecesSolver` returns
two solutions — the backtracker did not stop at the first success. -/
theorem c5_counterexample :
    (solutionsOf (runFitAllPiecesSolver 1 4 [] [("line-3", 1)])).length = 2 := by
  decide

/-- C6 counterexample. With 200 grid columns, the candidate order
`solveForColor` explores (its filtered-and-sorted list) puts the placement
with minimum cell (1,0) before the placement with minimum cell (0,150),
although the latter has the strictly smaller minimum-cell position
`r * gridCols + c` — the code sorts by `r * 100 + c`, not `r * C + c`. -/
theorem c6_counterexample :
    sortValidPlacements [c6PlacementHigh, c6PlacementLow] [] =
      [c6PlacementLow, c6PlacementHigh] ∧
    minPosC 200 c6PlacementHigh < minPosC 200 c6PlacementLow := by
  decide

/-! ### Solution-cap invariants -/

/-- Placing a shape does not touch the recorded solutions (fit-all). -/
theorem placeFit_sols (st : FitState) (p : Placement) :
    (placeFit st p).sols = st.sols := rfl

/-- The fit-all placement loop keeps at most 50 solutions, and signals stop
exactly when the 50th was recorded, provided the recursion levels it calls
do the same. -/
theorem fitInner_cap (child : FitState → List Solution × Bool)
    (hchild : ∀ st : FitState, st.sols.length < 50 →
      (child st).1.length ≤ 50 ∧ ((child st).2 = false → (child st).1.length < 50)) :
    ∀ (ps : List Placement) (st : FitState), st.sols.length < 50 →
      (fitInner child ps st).1.length ≤ 50 ∧
      ((fitInner child ps st).2 = false → (fitInner child ps st).1.length < 50) := by
  intro ps
  induction ps with
  | nil =>
    intro st h
    exact ⟨Nat.le_of_lt h, fun _ => h⟩
  | cons p rest ih =>
    intro st h
    simp only [fitInner]
    by_cases hov : (p.cells.any fun cell => st.used.contains cell) = true
    · rw [if_pos hov]
      exact ih st h
    · rw [if_neg hov]
      have hc := hchild (placeFit st p) (by rw [placeFit_sols]; exact h)
      by_cases hstop : (child (placeFit st p)).2 = true
      · rw [if_pos hstop]
        exact ⟨hc.1, fun hfalse => absurd hstop (by simp [hfalse])⟩
      · rw [if_neg hstop]
        have hlt : (child (placeFit st p)).1.length < 50 :=
          hc.2 (Bool.not_eq_true _ ▸ hstop)
        exact ih { st with sols := (child (placeFit st p)).1 } hlt

/-- One `backtrack` level of the fit-all solver keeps at most 50 solutions
and signals stop exactly when the 50th was recorded. -/
theorem fitEntry_cap (pbs : List (String × List Placement)) :
    ∀ (instances : List String) (st : FitState), st.sols.length < 50 →
      (fitEntry pbs instances st).1.length ≤ 50 ∧
      ((fitEntry pbs instances st).2 = false → (fitEntry pbs instances st).1.length < 50) := by
  intro instances
  induction instances with
  | nil =>
    intro st h
    simp only [fitEntry]
    constructor
    · simp only [List.length_append, List.length_singleton]
      omega
    · intro hfalse
      simp only [List.length_append, List.length_singleton,
        decide_eq_false_iff_not, not_le] at hfalse ⊢
      exact hfalse
  | cons sid rest ih =>
    intro st h
    simp only [fitEntry]
    exact fitInner_cap (fun st' => fitEntry pbs rest st') (fun st' h' => ih st' h')
      ((pbs.lookup sid).getD []) st h

/-- C5 (amended). The fit-all-pieces backtracker does not return at the
first complete assignment: it keeps enumerating and stops only at the
50-solution cap or when the search is exhausted, so every
`runFitAllPiecesSolver` call returns at most 50 solutions (and possibly
more than one, per the counterexample). -/
theorem c5_fit_cap (gridRows gridCols : Nat) (blockedCells : List Cell)
    (shapeCounts : List (String × Nat)) :
    (solutionsOf (runFitAllPiecesSolver gridRows gridCols blockedCells shapeCounts)).length
      ≤ 50 := by
  simp only [runFitAllPiecesSolver]
  split
  · simp [solutionsOf]
  · split
    · simp [solutionsOf]
    · split
      · simp [solutionsOf]
      · simpa [solutionsOf] using
          (fitEntry_cap _ (expandShapeInstances shapeCounts) ⟨[], [], []⟩ (by simp)).1

/-- Placing a shape does not touch the recorded solutions (free-count). -/
theorem placeFree_sols (st : FreeState) (p : Placement) :
    (placeFree st p).sols = st.sols := rfl

/-- The free-count candidate loop keeps at most 100 solutions, provided
the recursion levels it calls do the same. -/
theorem freeLoop_cap (child : List Placement → FreeState → List ColorSol)
    (hchild : ∀ (rest : List Placement) (st : FreeState),
      st.sols.length < 100 → (child rest st).length ≤ 100) :
    ∀ (ps : List Placement) (st : FreeState), st.sols.length < 100 →
      (freeLoop child ps st).length ≤ 100 := by
  intro ps
  induction ps with
  | nil => intro st h; exact Nat.le_of_lt h
  | cons p rest ih =>
    intro st h
    simp only [freeLoop]
    by_cases hov : (p.cells.any fun cell => st.used.contains cell) = true
    · rw [if_pos hov]
      exact ih st h
    · rw [if_neg hov]
      have hc : (child rest (placeFree st p)).length ≤ 100 :=
        hchild rest (placeFree st p) (by rw [placeFree_sols]; exact h)
      by_cases hcap : 100 ≤ (child rest (placeFree st p)).length
      · rw [if_pos hcap]; exact hc
      · rw [if_neg hcap]
        exact ih { st with sols := child rest (placeFree st p) }
          (show (child rest (placeFree st p)).length < 100 by omega)

/-- One `backtrack` level of `solveForColor` keeps at most 100
solutions. -/
theorem freeEntry_cap (rowReqs colReqs : List Req) (color : String) :
    ∀ (fuel : Nat) (cands : List Placement) (st : FreeState),
      st.sols.length < 100 →
      (freeEntry rowReqs colReqs color fuel cands st).length ≤ 100 := by
  intro fuel
  induction fuel with
  | zero => intro cands st h; exact Nat.le_of_lt h
  | succ fuel ih =>
    intro cands st h
    simp only [freeEntry]
    have hgo : ∀ st' : FreeState, st'.sols.length < 100 →
        (if countsExceed st'.rowCounts st'.colCounts rowReqs colReqs color = true
          then st'.sols
          else freeLoop (fun rest st'' => freeEntry rowReqs colReqs color fuel rest st'')
            cands st').length ≤ 100 := by
      intro st' h'
      by_cases hex : countsExceed st'.rowCounts st'.colCounts rowReqs colReqs color = true
      · rw [if_pos hex]; exact Nat.le_of_lt h'
      · rw [if_neg hex]
        exact freeLoop_cap _ (fun rest st'' h'' => ih rest st'' h'') cands st' h'
    by_cases hm : countsMatch st.rowCounts st.colCounts rowReqs colReqs color = true
    · rw [if_pos hm]
      by_cases hcap :
          100 ≤ ({ st with sols := st.sols ++ [⟨st.current, st.used⟩] } : FreeState).sols.length
      · rw [if_pos hcap]
        show (st.sols ++ [(⟨st.current, st.used⟩ : ColorSol)]).length ≤ 100
        simp only [List.length_append, List.length_singleton]
        omega
      · rw [if_neg hcap]
        refine hgo { st with sols := st.sols ++ [⟨st.current, st.used⟩] } ?_
        show (st.sols ++ [(⟨st.current, st.used⟩ : ColorSol)]).length < 100
        have : ¬ 100 ≤ (st.sols ++ [(⟨st.current, st.used⟩ : ColorSol)]).length := hcap
        omega
    · rw [if_neg hm]
      exact hgo st h

/-- The inner blue loop of `runSolver` keeps at most 50 solutions. -/
theorem blueCombineLoop_cap (greenSol : ColorSol) :
    ∀ (bs : List ColorSol) (sols : List Solution), sols.length < 50 →
      (blueCombineLoop greenSol bs sols).length ≤ 50 := by
  intro bs
  induction bs with
  | nil => intro sols h; exact Nat.le_of_lt h
  | cons b rest ih =>
    intro sols h
    simp only [blueCombineLoop]
    by_cases hcap : 50 ≤ (sols ++
        [(⟨greenSol.cells, b.cells, greenSol.placements, b.placements⟩ : Solution)]).length
    · rw [if_pos hcap]
      simp only [List.length_append, List.length_singleton]
      omega
    · rw [if_neg hcap]
      exact ih _ (by simp only [List.length_append, List.length_singleton] at hcap ⊢; omega)

/-- The outer green loop of `runSolver` keeps at most 50 solutions. -/
theorem greenCombineLoop_cap (allPlacements : List Placement) (gridRows gridCols : Nat)
    (rowReqs colReqs : List Req) (blockedCells : List Cell) (hasBlueReq : Bool) :
    ∀ (gs : List ColorSol) (sols : List Solution), sols.length < 50 →
      (greenCombineLoop allPlacements gridRows gridCols rowReqs colReqs blockedCells
        hasBlueReq gs sols).length ≤ 50 := by
  intro gs
  induction gs with
  | nil => intro sols h; exact Nat.le_of_lt h
  | cons g rest ih =>
    intro sols h
    simp only [greenCombineLoop]
    set sols' : List Solution := if hasBlueReq = true then
        blueCombineLoop g (solveForColor "blue" allPlacements gridRows gridCols
          rowReqs colReqs (blockedCells ++ g.cells)) sols
      else sols ++ [(⟨g.cells, [], g.placements, []⟩ : Solution)] with hsols'
    have hle : sols'.length ≤ 50 := by
      rw [hsols']
      by_cases hb : hasBlueReq = true
      · rw [if_pos hb]; exact blueCombineLoop_cap g _ sols h
      · rw [if_neg hb]
        simp only [List.length_append, List.length_singleton]
        omega
    by_cases hcap : 50 ≤ sols'.length
    · rw [if_pos hcap]; exact hle
    · rw [if_neg hcap]; exact ih sols' (by omega)

/-- C3. Per the source's hard caps: every per-color `solveForColor` search
returns at most 100 per-color solutions, and every `solve_counts`
invocation returns at most 50 whole-puzzle solutions. -/
theorem c3_solution_caps (color : String) (placements : List Placement)
    (gridRows gridCols : Nat) (rowReqs colReqs : List Req) (forbiddenCells : List Cell)
    (gridState : List (List CellState)) (enabledShapes : List String) :
    (solveForColor color placements gridRows gridCols rowReqs colReqs
      forbiddenCells).length ≤ 100 ∧
    (solutionsOf (runSolver gridRows gridCols gridState rowReqs colReqs
      enabledShapes)).length ≤ 50 := by
  constructor
  · exact freeEntry_cap rowReqs colReqs color _ _ _ (by simp)
  · have hgen : ∀ (hasBlue : Bool) (gs : List ColorSol) (ap : List Placement)
        (bc : List Cell),
        (greenCombineLoop ap gridRows gridCols rowReqs colReqs bc hasBlue gs []).length
          ≤ 50 :=
      fun hasBlue gs ap bc =>
        greenCombineLoop_cap ap gridRows gridCols rowReqs colReqs bc hasBlue gs []
          (by simp)
    simp only [runSolver]
    repeat' split
    all_goals simp only [solutionsOf]
    all_goals try simp
    all_goals exact hgen _ _ _ _

/-! ### Shape of fit-all solutions (claim C10) -/

/-- The form every fit-all solution takes: empty blue fields, green cells
exactly the cells of the recorded placements, and one placement per shape
instance. -/
def fitSolShape (n : Nat) (sol : Solution) : Prop :=
  sol.blue = [] ∧ sol.bluePlacements = [] ∧
  sol.green = sol.greenPlacements.flatMap (fun p => p.cells) ∧
  sol.greenPlacements.length = n

/-- The fit-all placement loop only adds solutions of the fit-all shape,
provided the recursion levels it calls do so from one more pushed
placement. -/
theorem fitInner_shape (child : FitState → List Solution × Bool) (m n : Nat)
    (hchild : ∀ st : FitState, (∀ s ∈ st.sols, fitSolShape n s) →
      st.current.length = m + 1 → ∀ s ∈ (child st).1, fitSolShape n s) :
    ∀ (ps : List Placement) (st : FitState), (∀ s ∈ st.sols, fitSolShape n s) →
      st.current.length = m → ∀ s ∈ (fitInner child ps st).1, fitSolShape n s := by
  intro ps
  induction ps with
  | nil => intro st hsols _; exact hsols
  | cons p rest ih =>
    intro st hsols hcur
    simp only [fitInner]
    by_cases hov : (p.cells.any fun cell => st.used.contains cell) = true
    · rw [if_pos hov]
      exact ih st hsols hcur
    · rw [if_neg hov]
      have hc : ∀ s ∈ (child (placeFit st p)).1, fitSolShape n s :=
        hchild (placeFit st p) hsols
          (by simp [placeFit, hcur])
      by_cases hstop : (child (placeFit st p)).2 = true
      · rw [if_pos hstop]; exact hc
      · rw [if_neg hstop]
        exact ih { st with sols := (child (placeFit st p)).1 } hc hcur

/-- Every solution the fit-all backtracker records has the fit-all shape,
with exactly as many placements as instances remained to be placed plus
those already on the stack. -/
theorem fitEntry_shape (pbs : List (String × List Placement)) (n : Nat) :
    ∀ (instances : List String) (st : FitState), (∀ s ∈ st.sols, fitSolShape n s) →
      st.current.length + instances.length = n →
      ∀ s ∈ (fitEntry pbs instances st).1, fitSolShape n s := by
  intro instances
  induction instances with
  | nil =>
    intro st hsols hcur s hs
    simp only [fitEntry] at hs
    rcases List.mem_append.mp hs with h | h
    · exact hsols s h
    · have hse : s = ⟨st.current.flatMap fun p => p.cells, [], st.current, []⟩ :=
        List.mem_singleton.mp h
      subst hse
      refine ⟨rfl, rfl, rfl, ?_⟩
      simpa using hcur
  | cons sid rest ih =>
    intro st hsols hcur
    simp only [List.length_cons] at hcur
    simp only [fitEntry]
    exact fitInner_shape (fun st' => fitEntry pbs rest st') st.current.length n
      (fun st' hsols' hcur' => ih st' hsols' (by omega))
      ((pbs.lookup sid).getD []) st hsols rfl

/-- C10. Every solution returned by the fit-all-pieces solver places all
cells of every shape instance under the green field (one recorded green
placement per instance, the green cells exactly their cells), and has an
empty blue cell list and empty blue placement list, regardless of the
caller's colors. -/
theorem c10_fit_solutions_green (gridRows gridCols : Nat) (blockedCells : List Cell)
    (shapeCounts : List (String × Nat)) (sol : Solution)
    (hsol : sol ∈ solutionsOf (runFitAllPiecesSolver gridRows gridCols blockedCells
      shapeCounts)) :
    fitSolShape (expandShapeInstances shapeCounts).length sol := by
  simp only [runFitAllPiecesSolver] at hsol
  split at hsol
  · simp [solutionsOf] at hsol
  · split at hsol
    · simp [solutionsOf] at hsol
    · split at hsol
      · simp [solutionsOf] at hsol
      · simp only [solutionsOf] at hsol
        exact fitEntry_shape _ _ (expandShapeInstances shapeCounts) ⟨[], [], []⟩
          (by simp) (by simp) sol hsol

/-- The single solution of the fit-all run on the 1-by-3 grid with one
`line-3` instance. -/
def c10Sol : Solution :=
  (solutionsOf (runFitAllPiecesSolver 1 3 [] [("line-3", 1)])).getD 0 defaultSolution

/-- Witness for C10 at a concrete input. -/
theorem c10_witness : fitSolShape (expandShapeInstances [("line-3", 1)]).length c10Sol :=
  c10_fit_solutions_green 1 3 [] [("line-3", 1)] c10Sol (by decide)

/-! ### Stable sort properties (claim C6) -/

/-- Membership through `stableInsert`. -/
theorem mem_stableInsert {α : Type} (le : α → α → Bool) (x a : α) :
    ∀ l : List α, a ∈ stableInsert le x l ↔ a = x ∨ a ∈ l := by
  intro l
  induction l with
  | nil => simp [stableInsert]
  | cons y ys ih =>
    simp only [stableInsert]
    by_cases hle : le y x = true
    · rw [if_pos hle]
      simp only [List.mem_cons, ih]
      tauto
    · rw [if_neg hle]
      simp only [List.mem_cons]

/-- `stableInsert` permutes the element onto the list. -/
theorem stableInsert_perm {α : Type} (le : α → α → Bool) (x : α) :
    ∀ l : List α, (stableInsert le x l).Perm (x :: l) := by
  intro l
  induction l with
  | nil => simp [stableInsert]
  | cons y ys ih =>
    simp only [stableInsert]
    by_cases hle : le y x = true
    · rw [if_pos hle]
      exact (ih.cons y).trans (List.Perm.swap x y ys)
    · rw [if_neg hle]

/-- The insertion fold permutes the input onto the accumulator. -/
theorem stableSortAux_perm {α : Type} (le : α → α → Bool) :
    ∀ (l acc : List α), (l.foldl (fun acc x => stableInsert le x acc) acc).Perm (acc ++ l) := by
  intro l
  induction l with
  | nil => intro acc; simp
  | cons x xs ih =>
    intro acc
    simp only [List.foldl_cons]
    refine (ih (stableInsert le x acc)).trans ?_
    refine (((stableInsert_perm le x acc).append_right xs).trans ?_)
    exact (List.perm_middle).symm

/-- `stableSort` permutes its input. -/
theorem stableSort_perm {α : Type} (le : α → α → Bool) (l : List α) :
    (stableSort le l).Perm l := by
  simpa using stableSortAux_perm le l []

/-- `stableInsert` preserves sortedness for a total, transitive boolean
comparison. -/
theorem stableInsert_sorted {α : Type} (le : α → α → Bool)
    (htotal : ∀ a b, le a b = true ∨ le b a = true)
    (htrans : ∀ a b c, le a b = true → le b c = true → le a c = true) (x : α) :
    ∀ l : List α, l.Pairwise (fun a b => le a b = true) →
      (stableInsert le x l).Pairwise (fun a b => le a b = true) := by
  intro l
  induction l with
  | nil => intro _; simp [stableInsert]
  | cons y ys ih =>
    intro h
    rw [List.pairwise_cons] at h
    simp only [stableInsert]
    by_cases hle : le y x = true
    · rw [if_pos hle]
      rw [List.pairwise_cons]
      refine ⟨?_, ih h.2⟩
      intro z hz
      rcases (mem_stableInsert le x z ys).mp hz with hzx | hzys
      · subst hzx; exact hle
      · exact h.1 z hzys
    · rw [if_neg hle]
      have hxy : le x y = true := (htotal x y).resolve_right (by simpa using hle)
      rw [List.pairwise_cons]
      refine ⟨?_, List.pairwise_cons.mpr h⟩
      intro z hz
      rcases List.mem_cons.mp hz with hzy | hzys
      · subst hzy; exact hxy
      · exact htrans x y z hxy (h.1 z hzys)

/-- `stableSort` sorts for a total, transitive boolean comparison. -/
theorem stableSort_sorted {α : Type} (le : α → α → Bool)
    (htotal : ∀ a b, le a b = true ∨ le b a = true)
    (htrans : ∀ a b c, le a b = true → le b c = true → le a c = true) (l : List α) :
    (stableSort le l).Pairwise (fun a b => le a b = true) := by
  suffices h : ∀ (l acc : List α), acc.Pairwise (fun a b => le a b = true) →
      (l.foldl (fun acc x => stableInsert le x acc) acc).Pairwise
        (fun a b => le a b = true) by
    exact h l [] (by simp)
  intro l
  induction l with
  | nil => intro acc hacc; simpa using hacc
  | cons x xs ih =>
    intro acc hacc
    simp only [List.foldl_cons]
    exact ih (stableInsert le x acc) (stableInsert_sorted le htotal htrans x acc hacc)

/-- C6 (amended). The candidate list explored by `solveForColor` in
free-count mode is the forbidden-free placements sorted in ascending order
of their minimum-cell position computed as `r * 100 + c` (a stable sort, so
it is a permutation of the filtered input): the hard-coded factor is 100,
not the grid's column count, so the claimed `r * C + c` order holds only
for grids of at most 100 columns and up to ties. -/
theorem c6_sorted_order (placements : List Placement) (forbiddenCells : List Cell) :
    (sortValidPlacements placements forbiddenCells).Pairwise
      (fun a b => key100 a ≤ key100 b) ∧
    (sortValidPlacements placements forbiddenCells).Perm
      (placements.filter fun p => !(p.cells.any fun cell => forbiddenCells.contains cell)) := by
  constructor
  · have h := stableSort_sorted (fun a b : Placement => key100 a ≤ key100 b)
      (fun a b => by
        rcases Int.le_total (key100 a) (key100 b) with h | h
        · exact Or.inl (by simpa using h)
        · exact Or.inr (by simpa using h))
      (fun a b c hab hbc => by
        simp only [decide_eq_true_eq] at hab hbc ⊢
        exact le_trans hab hbc)
      (placements.filter fun p => !(p.cells.any fun cell => forbiddenCells.contains cell))
    refine h.imp ?_
    intro a b hab
    simpa using hab
  · exact stableSort_perm _ _

/-! ### Solutions avoid forbidden cells (claim C2) -/

/-- Every cell of `cells` lies outside the forbidden list. -/
def cellsAvoid (forbidden : List Cell) (cells : List Cell) : Prop :=
  ∀ cell ∈ cells, cell ∉ forbidden

/-- Boolean `contains` on cell lists agrees with membership. -/
theorem contains_false_iff_not_mem (l : List Cell) (a : Cell) :
    l.contains a = false ↔ a ∉ l := by
  simp [List.contains]

/-- The free-count candidate loop only records solutions whose cells avoid
the forbidden set, provided the recursion levels it calls do, every
candidate placement avoids it, and the state does. -/
theorem freeLoop_avoid (forbidden : List Cell)
    (child : List Placement → FreeState → List ColorSol)
    (hchild : ∀ (rest : List Placement) (st : FreeState),
      (∀ p ∈ rest, cellsAvoid forbidden p.cells) → cellsAvoid forbidden st.used →
      (∀ s ∈ st.sols, cellsAvoid forbidden s.cells) →
      ∀ s ∈ child rest st, cellsAvoid forbidden s.cells) :
    ∀ (ps : List Placement) (st : FreeState),
      (∀ p ∈ ps, cellsAvoid forbidden p.cells) → cellsAvoid forbidden st.used →
      (∀ s ∈ st.sols, cellsAvoid forbidden s.cells) →
      ∀ s ∈ freeLoop child ps st, cellsAvoid forbidden s.cells := by
  intro ps
  induction ps with
  | nil => intro st _ _ hsols; exact hsols
  | cons p rest ih =>
    intro st hps hused hsols
    simp only [freeLoop]
    by_cases hov : (p.cells.any fun cell => st.used.contains cell) = true
    · rw [if_pos hov]
      exact ih st (fun q hq => hps q (List.mem_cons_of_mem p hq)) hused hsols
    · rw [if_neg hov]
      have hused' : cellsAvoid forbidden (placeFree st p).used := by
        intro cell hcell
        rcases List.mem_append.mp hcell with h | h
        · exact hused cell h
        · exact hps p (List.mem_cons_self _ _) cell h
      have hc : ∀ s ∈ child rest (placeFree st p), cellsAvoid forbidden s.cells :=
        hchild rest (placeFree st p)
          (fun q hq => hps q (List.mem_cons_of_mem p hq)) hused' hsols
      by_cases hcap : 100 ≤ (child rest (placeFree st p)).length
      · rw [if_pos hcap]; exact hc
      · rw [if_neg hcap]
        exact ih { st with sols := child rest (placeFree st p) }
          (fun q hq => hps q (List.mem_cons_of_mem p hq)) hused hc

/-- Every solution `solveForColor`'s backtracker records has cells that
avoid the forbidden set. -/
theorem freeEntry_avoid (rowReqs colReqs : List Req) (color : String)
    (forbidden : List Cell) :
    ∀ (fuel : Nat) (cands : List Placement) (st : FreeState),
      (∀ p ∈ cands, cellsAvoid forbidden p.cells) → cellsAvoid forbidden st.used →
      (∀ s ∈ st.sols, cellsAvoid forbidden s.cells) →
      ∀ s ∈ freeEntry rowReqs colReqs color fuel cands st,
        cellsAvoid forbidden s.cells := by
  intro fuel
  induction fuel with
  | zero => intro cands st _ _ hsols; exact hsols
  | succ fuel ih =>
    intro cands st hcands hused hsols
    simp only [freeEntry]
    have hgo : ∀ st' : FreeState, cellsAvoid forbidden st'.used →
        (∀ s ∈ st'.sols, cellsAvoid forbidden s.cells) →
        ∀ s ∈ (if countsExceed st'.rowCounts st'.colCounts rowReqs colReqs color = true
          then st'.sols
          else freeLoop (fun rest st'' => freeEntry rowReqs colReqs color fuel rest st'')
            cands st'), cellsAvoid forbidden s.cells := by
      intro st' hused' hsols'
      by_cases hex : countsExceed st'.rowCounts st'.colCounts rowReqs colReqs color = true
      · rw [if_pos hex]; exact hsols'
      · rw [if_neg hex]
        exact freeLoop_avoid forbidden _
          (fun rest st'' h1 h2 h3 => ih rest st'' h1 h2 h3) cands st' hcands hused' hsols'
    by_cases hm : countsMatch st.rowCounts st.colCounts rowReqs colReqs color = true
    · rw [if_pos hm]
      have hsols' : ∀ s ∈ st.sols ++ [(⟨st.current, st.used⟩ : ColorSol)],
          cellsAvoid forbidden s.cells := by
        intro s hs
        rcases List.mem_append.mp hs with h | h
        · exact hsols s h
        · rw [List.mem_singleton.mp h]; exact hused
      by_cases hcap :
          100 ≤ ({ st with sols := st.sols ++ [⟨st.current, st.used⟩] } : FreeState).sols.length
      · rw [if_pos hcap]; exact hsols'
      · rw [if_neg hcap]
        exact hgo { st with sols := st.sols ++ [⟨st.current, st.used⟩] } hused hsols'
    · rw [if_neg hm]
      exact hgo st hused hsols

/-- Every solution `solveForColor` returns has cells avoiding the
forbidden list it was given. -/
theorem solveForColor_avoid (color : String) (placements : List Placement)
    (gridRows gridCols : Nat) (rowReqs colReqs : List Req) (forbiddenCells : List Cell) :
    ∀ s ∈ solveForColor color placements gridRows gridCols rowReqs colReqs forbiddenCells,
      cellsAvoid forbiddenCells s.cells := by
  have hcands : ∀ p ∈ sortValidPlacements placements forbiddenCells,
      cellsAvoid forbiddenCells p.cells := by
    intro p hp
    have hpf : p ∈ placements.filter
        (fun p => !(p.cells.any fun cell => forbiddenCells.contains cell)) :=
      (stableSort_perm _ _).mem_iff.mp hp
    have hpred := List.of_mem_filter hpf
    intro cell hcell
    have hany : (p.cells.any fun cell => forbiddenCells.contains cell) = false := by
      simpa using hpred
    have := List.any_eq_false.mp hany cell hcell
    exact (contains_false_iff_not_mem forbiddenCells cell).mp (by simpa using this)
  exact freeEntry_avoid rowReqs colReqs color forbiddenCells _ _ _ hcands
    (by intro cell h; simp at h) (by intro s h; simp at h)

/-- Where the solutions of `runSolver`'s inner blue loop come from. -/
theorem mem_blueCombineLoop (greenSol : ColorSol) :
    ∀ (bs : List ColorSol) (sols : List Solution) (s : Solution),
      s ∈ blueCombineLoop greenSol bs sols →
      s ∈ sols ∨ ∃ b ∈ bs,
        s = ⟨greenSol.cells, b.cells, greenSol.placements, b.placements⟩ := by
  intro bs
  induction bs with
  | nil => intro sols s hs; exact Or.inl hs
  | cons b rest ih =>
    intro sols s hs
    simp only [blueCombineLoop] at hs
    by_cases hcap : 50 ≤ (sols ++
        [(⟨greenSol.cells, b.cells, greenSol.placements, b.placements⟩ : Solution)]).length
    · rw [if_pos hcap] at hs
      rcases List.mem_append.mp hs with h | h
      · exact Or.inl h
      · exact Or.inr ⟨b, List.mem_cons_self _ _, (List.mem_singleton.mp h)⟩
    · rw [if_neg hcap] at hs
      rcases ih _ s hs with h | ⟨b', hb', hse⟩
      · rcases List.mem_append.mp h with h | h
        · exact Or.inl h
        · exact Or.inr ⟨b, List.mem_cons_self _ _, (List.mem_singleton.mp h)⟩
      · exact Or.inr ⟨b', List.mem_cons_of_mem b hb', hse⟩

/-- Where the solutions of `runSolver`'s outer green loop come from: an
input solution, or a green solution combined with a blue solution found
against it, or a green-only solution. -/
theorem mem_greenCombineLoop (allPlacements : List Placement) (gridRows gridCols : Nat)
    (rowReqs colReqs : List Req) (blockedCells : List Cell) (hasBlueReq : Bool) :
    ∀ (gs : List ColorSol) (sols : List Solution) (s : Solution),
      s ∈ greenCombineLoop allPlacements gridRows gridCols rowReqs colReqs blockedCells
        hasBlueReq gs sols →
      s ∈ sols ∨ ∃ g ∈ gs,
        (∃ b ∈ solveForColor "blue" allPlacements gridRows gridCols rowReqs colReqs
            (blockedCells ++ g.cells),
          s = ⟨g.cells, b.cells, g.placements, b.placements⟩) ∨
        s = ⟨g.cells, [], g.placements, []⟩ := by
  intro gs
  induction gs with
  | nil => intro sols s hs; exact Or.inl hs
  | cons g rest ih =>
    intro sols s hs
    simp only [greenCombineLoop] at hs
    have hsplit : ∀ sols' : List Solution,
        (s ∈ sols' →
          s ∈ sols ∨ ∃ g' ∈ g :: rest,
            (∃ b ∈ solveForColor "blue" allPlacements gridRows gridCols rowReqs colReqs
                (blockedCells ++ g'.cells),
              s = ⟨g'.cells, b.cells, g'.placements, b.placements⟩) ∨
            s = ⟨g'.cells, [], g'.placements, []⟩) →
        (s ∈ (if 50 ≤ sols'.length then sols'
          else greenCombineLoop allPlacements gridRows gridCols rowReqs colReqs
            blockedCells hasBlueReq rest sols') →
          s ∈ sols ∨ ∃ g' ∈ g :: rest,
            (∃ b ∈ solveForColor "blue" allPlacements gridRows gridCols rowReqs colReqs
                (blockedCells ++ g'.cells),
              s = ⟨g'.cells, b.cells, g'.placements, b.placements⟩) ∨
            s = ⟨g'.cells, [], g'.placements, []⟩) := by
      intro sols' hbase hs'
      by_cases hcap : 50 ≤ sols'.length
      · rw [if_pos hcap] at hs'
        exact hbase hs'
      · rw [if_neg hcap] at hs'
        rcases ih sols' s hs' with h | ⟨g', hg', hcase⟩
        · exact hbase h
        · exact Or.inr ⟨g', List.mem_cons_of_mem g hg', hcase⟩
    by_cases hb : hasBlueReq = true
    · rw [if_pos hb] at hs
      refine hsplit _ ?_ hs
      intro hmem
      rcases mem_blueCombineLoop g _ _ s hmem with h | ⟨b, hbmem, hse⟩
      · exact Or.inl h
      · exact Or.inr ⟨g, List.mem_cons_self _ _, Or.inl ⟨b, hbmem, hse⟩⟩
    · rw [if_neg hb] at hs
      refine hsplit _ ?_ hs
      intro hmem
      rcases List.mem_append.mp hmem with h | h
      · exact Or.inl h
      · exact Or.inr ⟨g, List.mem_cons_self _ _, Or.inr (List.mem_singleton.mp h)⟩

/-- C2 (amended). Every solution a successful `solve_counts` run returns
has green and blue cell unions that avoid every Blocked cell of the grid;
the solver reads no LockedFor information, so coverage of own-color locks
and exclusion of other-color locks are not enforced (see the
counterexample). -/
theorem c2_solutions_avoid_blocked (gridRows gridCols : Nat)
    (gridState : List (List CellState)) (rowReqs colReqs : List Req)
    (enabledShapes : List String) (sol : Solution) (cell : Cell)
    (hsol : sol ∈ solutionsOf (runSolver gridRows gridCols gridState rowReqs colReqs
      enabledShapes))
    (hcell : cell ∈ blockedCellsOf gridRows gridCols gridState) :
    cell ∉ sol.green ∧ cell ∉ sol.blue := by
  have main : ∀ greens : List ColorSol, (∀ g ∈ greens, cell ∉ g.cells) →
      sol ∈ greenCombineLoop
        (generateAllPlacements gridRows gridCols
          (blockedCellsOf gridRows gridCols gridState) enabledShapes)
        gridRows gridCols rowReqs colReqs (blockedCellsOf gridRows gridCols gridState)
        (hasColorReq rowReqs colReqs "blue") greens [] →
      cell ∉ sol.green ∧ cell ∉ sol.blue := by
    intro greens hgreens hmem
    rcases mem_greenCombineLoop
        (generateAllPlacements gridRows gridCols
          (blockedCellsOf gridRows gridCols gridState) enabledShapes)
        gridRows gridCols rowReqs colReqs (blockedCellsOf gridRows gridCols gridState)
        (hasColorReq rowReqs colReqs "blue") greens [] sol hmem with h | ⟨g, hg, hcase⟩
    · simp at h
    · have hgreen : cell ∉ g.cells := hgreens g hg
      rcases hcase with ⟨b, hbmem, hse⟩ | hse
      · have hblue : cell ∉ b.cells := by
          intro hcb
          have := solveForColor_avoid "blue" _ gridRows gridCols rowReqs colReqs
            (blockedCellsOf gridRows gridCols gridState ++ g.cells) b hbmem cell hcb
          exact this (List.mem_append.mpr (Or.inl hcell))
        rw [hse]
        exact ⟨hgreen, hblue⟩
      · rw [hse]
        exact ⟨hgreen, by simp⟩
  have hvac : ∀ g ∈ ([⟨[], []⟩] : List ColorSol), cell ∉ g.cells := by
    intro g hg
    rw [List.mem_singleton.mp hg]
    simp
  have hsolve : ∀ g ∈ solveForColor "green"
      (generateAllPlacements gridRows gridCols
        (blockedCellsOf gridRows gridCols gridState) enabledShapes)
      gridRows gridCols rowReqs colReqs (blockedCellsOf gridRows gridCols gridState),
      cell ∉ g.cells :=
    fun g hg hcg =>
      solveForColor_avoid "green" _ gridRows gridCols rowReqs colReqs _ g hg cell hcg
        hcell
  simp only [runSolver] at hsol
  repeat' split at hsol
  all_goals simp only [solutionsOf] at hsol
  all_goals first
    | exact absurd hsol (List.not_mem_nil sol)
    | exact main _ hsolve hsol
    | exact main _ hvac hsol

/-- The 2-by-3 grid of the C2 witness: a blocked cell at (1,0). -/
def c2WitnessGrid : List (List CellState) :=
  [[.empty, .empty, .empty], [.blocked, .empty, .empty]]

/-- Row requirements of the C2 witness. -/
def c2WitnessRR : List Req := [[("green", 3), ("blue", 0)], [("green", 0), ("blue", 0)]]

/-- Column requirements of the C2 witness. -/
def c2WitnessCC : List Req :=
  [[("green", 1), ("blue", 0)], [("green", 1), ("blue", 0)], [("green", 1), ("blue", 0)]]

/-- Witness for C2 at a concrete input with a blocked cell and a
successful solve. -/
theorem c2_witness :
    ((1 : Int), (0 : Int)) ∉
      ((solutionsOf (runSolver 2 3 c2WitnessGrid c2WitnessRR c2WitnessCC
        ["line-3"])).getD 0 defaultSolution).green ∧
    ((1 : Int), (0 : Int)) ∉
      ((solutionsOf (runSolver 2 3 c2WitnessGrid c2WitnessRR c2WitnessCC
        ["line-3"])).getD 0 defaultSolution).blue :=
  c2_solutions_avoid_blocked 2 3 c2WitnessGrid c2WitnessRR c2WitnessCC ["line-3"]
    _ _ (by decide) (by decide)

/-! ### Failure modes without pre-valid placements (claim C4) -/

/-- A replicated zero count array reads zero everywhere. -/
theorem getD_replicate_zero (n i : Nat) : (List.replicate n (0 : Nat)).getD i 0 = 0 := by
  rcases Nat.lt_or_ge i n with h | h
  · rw [List.getD_eq_getElem _ _ (by simpa using h)]
    simp
  · rw [List.getD_eq_default]
    simp [h]

/-- Zero counts never exceed the (natural-number) requirements. -/
theorem countsExceed_zero (rowReqs colReqs : List Req) (R C : Nat) (color : String) :
    countsExceed (List.replicate R 0) (List.replicate C 0) rowReqs colReqs color
      = false := by
  simp only [countsExceed, Bool.or_eq_false_iff]
  constructor <;>
  · rw [List.any_eq_false]
    intro i _
    split
    · simp [getD_replicate_zero]
    · simp

/-- With a positive requirement somewhere in range, zero counts do not
match exactly. -/
theorem countsMatch_zero_false (rowReqs colReqs : List Req) (R C : Nat) (color : String)
    (hR : rowReqs.length = R) (hC : colReqs.length = C)
    (h : hasColorReq rowReqs colReqs color = true) :
    countsMatch (List.replicate R 0) (List.replicate C 0) rowReqs colReqs color
      = false := by
  simp only [hasColorReq, Bool.or_eq_true, List.any_eq_true] at h
  have hpossome : ∀ req : Req, (0 < (objGet req color).getD 0) →
      ∃ v, objGet req color = some v ∧ 0 < v := by
    intro req hpos
    cases hobj : objGet req color with
    | none => rw [hobj] at hpos; simp at hpos
    | some v => exact ⟨v, rfl, by rw [hobj] at hpos; simpa using hpos⟩
  rcases h with ⟨req, hmem, hpos⟩ | ⟨req, hmem, hpos⟩
  · obtain ⟨i, hi, hreq⟩ := List.mem_iff_getElem.mp hmem
    obtain ⟨v, hobj, hv⟩ := hpossome req (by simpa using hpos)
    simp only [countsMatch, Bool.and_eq_false_iff]
    left
    rw [List.all_eq_false]
    refine ⟨i, by simp [hR]; omega, ?_⟩
    rw [List.getD_eq_getElem rowReqs [] (by omega), hreq, hobj]
    simp [getD_replicate_zero]
    omega
  · obtain ⟨i, hi, hreq⟩ := List.mem_iff_getElem.mp hmem
    obtain ⟨v, hobj, hv⟩ := hpossome req (by simpa using hpos)
    simp only [countsMatch, Bool.and_eq_false_iff]
    right
    rw [List.all_eq_false]
    refine ⟨i, by simp [hC]; omega, ?_⟩
    rw [List.getD_eq_getElem colReqs [] (by omega), hreq, hobj]
    simp [getD_replicate_zero]
    omega

/-- When every shape of the count object has no pre-valid placement, every
lookup in the pre-generated placement table is empty. -/
theorem lookup_placementsByShape_empty (shapeCounts : List (String × Nat))
    (gridRows gridCols : Nat) (blockedSet : List Cell)
    (h : ∀ sc ∈ shapeCounts,
      generatePlacementsForShape sc.1 gridRows gridCols blockedSet = []) :
    ∀ sid, (((placementsByShapeOf shapeCounts gridRows gridCols blockedSet).lookup
      sid).getD []) = [] := by
  intro sid
  induction shapeCounts with
  | nil => rfl
  | cons sc rest ih =>
    have hrest := ih fun sc' hsc' => h sc' (List.mem_cons_of_mem sc hsc')
    simp only [placementsByShapeOf, List.map_cons, List.lookup]
    cases hsid : sid == sc.1
    · simp only [hsid]
      exact hrest
    · simp only [hsid, Option.getD_some]
      exact h sc (List.mem_cons_self _ _)

/-- With an all-empty placement table, the exact-count instance loop finds
nothing and never stops early. -/
theorem exactOuter_all_empty (entryChild : List (Nat × String) → ExactState →
      List ExactSol × Bool) (pbs : List (String × List Placement))
    (forbiddenSet : List Cell) (hpbs : ∀ sid, ((pbs.lookup sid).getD []) = []) :
    ∀ (instances : List (Nat × String)) (st : ExactState),
      exactOuter entryChild pbs forbiddenSet instances st = (st.sols, false) := by
  intro instances
  induction instances with
  | nil => intro st; rfl
  | cons iv rest ih =>
    intro st
    simp only [exactOuter, hpbs iv.2, exactInner]
    exact ih st

/-- With an all-empty placement table and a positive in-range requirement,
the exact-count per-color search returns no solutions. -/
theorem solveForColorWithCounts_empty (color : String) (shapeInstances : List String)
    (pbs : List (String × List Placement)) (R C : Nat) (rowReqs colReqs : List Req)
    (forbiddenCells : List Cell)
    (hpbs : ∀ sid, ((pbs.lookup sid).getD []) = [])
    (hmatch : countsMatch (List.replicate R 0) (List.replicate C 0) rowReqs colReqs
      color = false) :
    solveForColorWithCounts color shapeInstances pbs R C rowReqs colReqs
      forbiddenCells = [] := by
  simp only [solveForColorWithCounts, exactEntry, hmatch, Bool.false_eq_true, if_false,
    countsExceed_zero]
  rw [exactOuter_all_empty _ pbs forbiddenCells hpbs]

/-- With an all-empty placement table, the simple (blue) instance loop
finds nothing and never stops early. -/
theorem simpleOuter_all_empty (entryChild : List String → FreeState →
      List ColorSol × Bool) (pbs : List (String × List Placement))
    (forbiddenSet : List Cell) (hpbs : ∀ sid, ((pbs.lookup sid).getD []) = []) :
    ∀ (instances : List String) (st : FreeState),
      simpleOuter entryChild pbs forbiddenSet instances st = (st.sols, false) := by
  intro instances
  induction instances with
  | nil => intro st; rfl
  | cons sid rest ih =>
    intro st
    simp only [simpleOuter, hpbs sid, simpleInner]
    exact ih st

/-- With an all-empty placement table and a positive in-range requirement,
the simple exact-count per-color search returns no solutions. -/
theorem solveForColorWithCountsSimple_empty (color : String)
    (shapeInstances : List String) (pbs : List (String × List Placement)) (R C : Nat)
    (rowReqs colReqs : List Req) (forbiddenCells : List Cell)
    (hpbs : ∀ sid, ((pbs.lookup sid).getD []) = [])
    (hmatch : countsMatch (List.replicate R 0) (List.replicate C 0) rowReqs colReqs
      color = false) :
    solveForColorWithCountsSimple color shapeInstances pbs R C rowReqs colReqs
      forbiddenCells = [] := by
  simp only [solveForColorWithCountsSimple, simpleEntry, hmatch, Bool.false_eq_true,
    if_false, countsExceed_zero]
  rw [simpleOuter_all_empty _ pbs forbiddenCells hpbs]

/-- C4 (amended). With some non-zero row or column requirement and no
pre-valid placement, `runSolver` fails with the `NoPlacements` message, but
`runSolverWithShapeCounts` — which has no placement-emptiness check —
fails with one of its `NoSolution`-kind messages instead. -/
theorem c4_failure_modes (gridRows gridCols : Nat)
    (gridState : List (List CellState)) (rowReqs colReqs : List Req)
    (enabledShapes : List String) (shapeCounts : List (String × Nat))
    (hR : rowReqs.length = gridRows) (hC : colReqs.length = gridCols)
    (hreq : (hasColorReq rowReqs colReqs "green" ||
      hasColorReq rowReqs colReqs "blue") = true)
    (hfree : generateAllPlacements gridRows gridCols
      (blockedCellsOf gridRows gridCols gridState) enabledShapes = [])
    (hexact : ∀ sc ∈ shapeCounts, generatePlacementsForShape sc.1 gridRows gridCols
      (blockedCellsOf gridRows gridCols gridState) = []) :
    runSolver gridRows gridCols gridState rowReqs colReqs enabledShapes =
      .failure "No valid shape placements possible" ∧
    (runSolverWithShapeCounts gridRows gridCols gridState rowReqs colReqs shapeCounts =
        .failure "No valid green configuration found with selected shapes" ∨
      runSolverWithShapeCounts gridRows gridCols gridState rowReqs colReqs shapeCounts =
        .failure "No valid solution found with selected shape counts") := by
  have hnotnone : (!hasColorReq rowReqs colReqs "green" &&
      !hasColorReq rowReqs colReqs "blue") ≠ true := by
    simp only [Bool.or_eq_true] at hreq
    rcases hreq with h | h <;> simp [h]
  have hpbs := lookup_placementsByShape_empty shapeCounts gridRows gridCols
    (blockedCellsOf gridRows gridCols gridState) hexact
  constructor
  · simp only [runSolver]
    rw [if_neg hnotnone, hfree]
    simp
  · simp only [runSolverWithShapeCounts]
    rw [if_neg hnotnone]
    by_cases hg : hasColorReq rowReqs colReqs "green" = true
    · left
      have hempty := solveForColorWithCounts_empty "green"
        (expandShapeInstances shapeCounts)
        (placementsByShapeOf shapeCounts gridRows gridCols
          (blockedCellsOf gridRows gridCols gridState))
        gridRows gridCols rowReqs colReqs
        (blockedCellsOf gridRows gridCols gridState) hpbs
        (countsMatch_zero_false rowReqs colReqs gridRows gridCols "green" hR hC hg)
      rw [if_pos hg, hempty]
      simp [hg]
    · right
      have hb : hasColorReq rowReqs colReqs "blue" = true := by
        simp only [Bool.or_eq_true] at hreq
        exact hreq.resolve_left hg
      have hbluempty := solveForColorWithCountsSimple_empty "blue"
        (expandShapeInstances shapeCounts)
        (placementsByShapeOf shapeCounts gridRows gridCols
          (blockedCellsOf gridRows gridCols gridState))
        gridRows gridCols rowReqs colReqs
        (blockedCellsOf gridRows gridCols gridState ++
          ([] : List Cell))
        hpbs
        (countsMatch_zero_false rowReqs colReqs gridRows gridCols "blue" hR hC hb)
      rw [if_neg hg]
      have hgfalse : hasColorReq rowReqs colReqs "green" = false :=
        Bool.not_eq_true _ ▸ (by simpa using hg)
      simp only [hgfalse, Bool.false_and, Bool.false_eq_true, if_false]
      simp only [exactGreenCombineLoop, hb, if_true]
      have hrem : ((expandShapeInstances shapeCounts).enum.filter
          (fun iv => !(((⟨[], [], []⟩ : ExactSol).usedShapeIndices).contains iv.1))).map
            Prod.snd = expandShapeInstances shapeCounts := by
        simp
      rw [hrem]
      by_cases he : (expandShapeInstances shapeCounts).isEmpty = true
      · rw [if_pos he]
        simp [exactGreenCombineLoop]
      · rw [if_neg he]
        rw [hbluempty]
        simp [exactBlueCombineLoop, exactGreenCombineLoop]

/-- Witness for C4 at the all-blocked 1-by-1 grid. -/
theorem c4_witness :
    runSolver 1 1 c4Grid [[("green", 1)]] [[("green", 1)]] ["square-4"] =
      .failure "No valid shape placements possible" ∧
    (runSolverWithShapeCounts 1 1 c4Grid [[("green", 1)]] [[("green", 1)]]
        [("square-4", 1)] =
        .failure "No valid green configuration found with selected shapes" ∨
      runSolverWithShapeCounts 1 1 c4Grid [[("green", 1)]] [[("green", 1)]]
        [("square-4", 1)] =
        .failure "No valid solution found with selected shape counts") :=
  c4_failure_modes 1 1 c4Grid [[("green", 1)]] [[("green", 1)]] ["square-4"]
    [("square-4", 1)] (by decide) (by decide) (by decide) (by decide) (by decide)

/-! ### Requirements derivation counts (claim C7) -/

/-- Reading the first entry of an object. -/
theorem objGet_cons_self (k1 : String) (v1 : Nat) (rest : List (String × Nat)) :
    objGet ((k1, v1) :: rest) k1 = some v1 := by
  simp [objGet, List.lookup_cons]

/-- Reading past a mismatching entry of an object. -/
theorem objGet_cons_ne {k' k1 : String} (h : k' ≠ k1) (v1 : Nat)
    (rest : List (String × Nat)) : objGet ((k1, v1) :: rest) k' = objGet rest k' := by
  simp [objGet, List.lookup_cons, beq_false_of_ne h]

/-- One unfolding step of `objInc`. -/
theorem objInc_cons (k1 : String) (v1 : Nat) (rest : List (String × Nat)) (k : String) :
    objInc ((k1, v1) :: rest) k =
      (if k1 = k then (k1, v1 + 1) else (k1, v1)) :: objInc rest k := by
  simp [objInc]

/-- One unfolding step of `objSet`. -/
theorem objSet_cons (k1 : String) (v1 : Nat) (rest : List (String × Nat)) (k : String)
    (v : Nat) :
    objSet ((k1, v1) :: rest) k v =
      if k1 = k then (k, v) :: rest else (k1, v1) :: objSet rest k v := by
  simp [objSet]

/-- Reading a bumped object: the looked-up key gains one, every other key
is untouched. -/
theorem objGet_objInc (o : List (String × Nat)) (k k' : String) :
    objGet (objInc o k) k' =
      if k' = k then (objGet o k').map (· + 1) else objGet o k' := by
  induction o with
  | nil => by_cases h : k' = k <;> simp [objInc, objGet, h]
  | cons kv rest ih =>
    obtain ⟨k1, v1⟩ := kv
    rw [objInc_cons]
    by_cases hkv : k1 = k
    · rw [if_pos hkv]
      by_cases hk' : k' = k1
      · subst hk'
        rw [objGet_cons_self, objGet_cons_self, if_pos hkv]
        simp
      · simp only [objGet_cons_ne hk']
        exact ih
    · rw [if_neg hkv]
      by_cases hk' : k' = k1
      · subst hk'
        rw [objGet_cons_self, if_neg hkv, objGet_cons_self]
      · simp only [objGet_cons_ne hk']
        exact ih

/-- The per-cell color loop leaves keys outside the palette untouched. -/
theorem objGet_incStep_not_mem (cell : CellState) (k : String) :
    ∀ (colors : List String), k ∉ colors → ∀ o : Req,
      objGet (incStep colors cell o) k = objGet o k := by
  intro colors
  induction colors with
  | nil => intro _ o; rfl
  | cons c rest ih =>
    intro hk o
    simp only [incStep, List.foldl_cons] at ih ⊢
    rw [ih (fun h => hk (List.mem_cons_of_mem c h))]
    by_cases hm : cellMatches cell c = true
    · rw [if_pos hm, objGet_objInc,
        if_neg (show ¬ k = c from fun h => hk (by rw [h]; exact List.mem_cons_self c rest))]
    · rw [if_neg hm]

/-- The per-cell color loop bumps a palette key exactly when the cell
matches that color (duplicate-free palette). -/
theorem objGet_incStep (cell : CellState) (k : String) :
    ∀ (colors : List String), colors.Nodup → k ∈ colors → ∀ o : Req,
      objGet (incStep colors cell o) k =
        if cellMatches cell k = true then (objGet o k).map (· + 1) else objGet o k := by
  intro colors
  induction colors with
  | nil => intro _ hk; exact absurd hk (List.not_mem_nil k)
  | cons c rest ih =>
    intro hnd hk o
    rcases List.nodup_cons.mp hnd with ⟨hcrest, hndrest⟩
    simp only [incStep, List.foldl_cons] at ih ⊢
    rcases List.mem_cons.mp hk with hkc | hkrest
    · subst hkc
      rw [show (List.foldl (fun acc k_1 => if cellMatches cell k_1 = true
          then objInc acc k_1 else acc) (if cellMatches cell k = true
            then objInc o k else o) rest) = incStep rest cell
          (if cellMatches cell k = true then objInc o k else o) from rfl]
      rw [objGet_incStep_not_mem cell k rest hcrest]
      by_cases hm : cellMatches cell k = true
      · rw [if_pos hm, if_pos hm, objGet_objInc, if_pos rfl]
      · rw [if_neg hm, if_neg hm]
    · have hkc : k ≠ c := fun h => hcrest (h ▸ hkrest)
      rw [ih hndrest hkrest]
      by_cases hm : cellMatches cell c = true
      · rw [if_pos hm, objGet_objInc, if_neg hkc]
      · rw [if_neg hm]

/-- Reading an overwritten object. -/
theorem objGet_objSet (k k' : String) (v : Nat) :
    ∀ o : Req, objGet (objSet o k v) k' = if k' = k then some v else objGet o k' := by
  intro o
  induction o with
  | nil =>
    by_cases h : k' = k
    · subst h; simp [objSet, objGet, List.lookup_cons]
    · simp [objSet, objGet, List.lookup_cons, beq_false_of_ne h, h]
  | cons kv rest ih =>
    obtain ⟨k1, v1⟩ := kv
    rw [objSet_cons]
    by_cases hkv : k1 = k
    · rw [if_pos hkv]
      by_cases hk' : k' = k
      · subst hk'
        rw [objGet_cons_self, if_pos rfl]
      · rw [objGet_cons_ne hk', if_neg hk',
          objGet_cons_ne (show k' ≠ k1 from fun h => hk' (h.trans hkv))]
    · rw [if_neg hkv]
      by_cases hk' : k' = k1
      · subst hk'
        rw [objGet_cons_self, if_neg hkv, objGet_cons_self]
      · simp only [objGet_cons_ne hk']
        exact ih

/-- Folding zero-initialization over the palette. -/
theorem objGet_foldSet (k : String) :
    ∀ (colors : List String) (o : Req),
      objGet (colors.foldl (fun acc c => objSet acc c 0) o) k =
        if k ∈ colors then some 0 else objGet o k := by
  intro colors
  induction colors with
  | nil => intro o; simp
  | cons c rest ih =>
    intro o
    simp only [List.foldl_cons]
    rw [ih (objSet o c 0)]
    by_cases hrest : k ∈ rest
    · rw [if_pos hrest, if_pos (List.mem_cons_of_mem c hrest)]
    · rw [if_neg hrest, objGet_objSet]
      by_cases hkc : k = c
      · rw [if_pos hkc, if_pos (by rw [hkc]; exact List.mem_cons_self c rest)]
      · rw [if_neg hkc, if_neg (by
          intro hmem
          rcases List.mem_cons.mp hmem with h | h
          · exact hkc h
          · exact hrest h)]

/-- Every palette key starts at zero in the initialized requirement
object. -/
theorem objGet_initObj (k : String) (colors : List String) (hk : k ∈ colors) :
    objGet (initObj colors) k = some 0 := by
  have h := objGet_foldSet k colors []
  rw [if_pos hk] at h
  exact h

/-- Folding the per-cell color loop over a list of positions accumulates
exactly the number of matching cells. -/
theorem objGet_fold_incStep (colors : List String) (hnd : colors.Nodup) (k : String)
    (hk : k ∈ colors) (f : Nat → CellState) :
    ∀ (l : List Nat) (o : Req) (v : Nat), objGet o k = some v →
      objGet (l.foldl (fun acc i => incStep colors (f i) acc) o) k =
        some (v + (l.filter fun i => cellMatches (f i) k).length) := by
  intro l
  induction l with
  | nil => intro o v hv; simpa using hv
  | cons i rest ih =>
    intro o v hv
    simp only [List.foldl_cons, List.filter_cons]
    by_cases hm : cellMatches (f i) k = true
    · rw [ih (incStep colors (f i) o) (v + 1)
        (by rw [objGet_incStep (f i) k colors hnd hk o, if_pos hm, hv]; rfl)]
      rw [if_pos hm]
      simp only [List.length_cons, Option.some.injEq]
      omega
    · rw [ih (incStep colors (f i) o) v
        (by rw [objGet_incStep (f i) k colors hnd hk o, if_neg hm]; exact hv)]
      rw [if_neg hm]

/-- C7. For every grid and every duplicate-free palette (hence for every
grid produced by a successful generation), the derived requirements
satisfy: for every in-range row `r` and palette color `k`, `rowReq[r][k]`
equals the number of columns holding `FilledWith(k)` or `LockedFor(k)`,
and symmetrically for every in-range column; Blocked and Empty cells match
no color and so contribute zero to every count. -/
theorem c7_requirements_counts (grid : Grid) (colors : List String) (r c : Nat)
    (k : String) (hnd : colors.Nodup) (hk : k ∈ colors) (hr : r < grid.length)
    (hc : c < (grid.headD []).length) :
    objGet ((calcDisplayRequirements grid colors).rows.getD r []) k =
      some (((List.range (grid.headD []).length).filter fun cc =>
        cellMatches (gridGetN grid r cc) k).length) ∧
    objGet ((calcDisplayRequirements grid colors).cols.getD c []) k =
      some (((List.range grid.length).filter fun rr =>
        cellMatches (gridGetN grid rr c) k).length) := by
  constructor
  · have hrows : (calcDisplayRequirements grid colors).rows.getD r [] =
        (List.range (grid.headD []).length).foldl
          (fun acc cc => incStep colors (gridGetN grid r cc) acc) (initObj colors) := by
      simp only [calcDisplayRequirements]
      rw [List.getD_eq_getElem _ _ (by simpa using hr)]
      simp
    rw [hrows,
      objGet_fold_incStep colors hnd k hk (fun cc => gridGetN grid r cc) _ _ 0
        (objGet_initObj k colors hk)]
    simp
  · have hcols : (calcDisplayRequirements grid colors).cols.getD c [] =
        (List.range grid.length).foldl
          (fun acc rr => incStep colors (gridGetN grid rr c) acc) (initObj colors) := by
      simp only [calcDisplayRequirements]
      rw [List.getD_eq_getElem _ _ (by simpa using hc)]
      simp
    rw [hcols,
      objGet_fold_incStep colors hnd k hk (fun rr => gridGetN grid rr c) _ _ 0
        (objGet_initObj k colors hk)]
    simp

/-- The grid of the C7 witness. -/
def c7Grid : Grid := [[.filled "green", .blocked], [.empty, .locked "green"]]

/-- Witness for C7 at a concrete grid and palette. -/
theorem c7_witness :
    objGet ((calcDisplayRequirements c7Grid ["green", "blue"]).rows.getD 0 []) "green" =
      some (((List.range (c7Grid.headD []).length).filter fun cc =>
        cellMatches (gridGetN c7Grid 0 cc) "green").length) ∧
    objGet ((calcDisplayRequirements c7Grid ["green", "blue"]).cols.getD 1 []) "green" =
      some (((List.range c7Grid.length).filter fun rr =>
        cellMatches (gridGetN c7Grid rr 1) "green").length) :=
  c7_requirements_counts c7Grid ["green", "blue"] 0 1 "green" (by decide) (by decide)
    (by decide) (by decide)

end OCS
